import Mathlib

/-!
Verification development for a small tree-walking interpreter
(lexer → parser → evaluator) written in Python (`basics.py`).

The embedding below is a shallow one: every Python class or function that
the claims touch is translated into a Lean definition of the same name
(camel-cased).  Python-level exceptions (TypeError, AttributeError,
UnboundLocalError, ...) are modelled explicitly by the `PyExn` type: a
computation of the source either returns normally, raises a Python
exception, or — an artifact of the embedding only — runs out of fuel
(`Res.fuel`; the recursions of the source are loops and recursive calls,
which we drive by an explicit fuel counter).  `Res.unmodelled` marks the
one corner left outside the exact fragment: a fractional exponent, where
the host computes an inexact float or a complex number.  Host numbers
(Python int / float) are modelled as exact rationals; no claim below
depends on float rounding or on decimal rendering.
-/

/-- Python-level exceptions that the source can actually raise. -/
inductive PyExn where
  | typeError
  | attributeError
  | unboundLocalError
  | valueError
  | zeroDivisionError
  | eofError
deriving DecidableEq, Repr

/-- Result of running a piece of the source: a value, a raised Python
exception, or one of the two embedding artifacts (`fuel`, `unmodelled`). -/
inductive Res (α : Type) where
  | ok (a : α)
  | exn (e : PyExn)
  | fuel
  | unmodelled
deriving Repr

def Res.bind {α β : Type} : Res α → (α → Res β) → Res β
  | .ok a, f => f a
  | .exn e, _ => .exn e
  | .fuel, _ => .fuel
  | .unmodelled, _ => .unmodelled

instance : Monad Res where
  pure := Res.ok
  bind := Res.bind

/-! ## Position (`class Position`) -/

/-- `Position(idx, ln, col, file_name, file_text)`. -/
structure Pos where
  idx : Int
  ln : Int
  col : Int
  fileName : String
  fileText : String
deriving DecidableEq, Repr

instance : Inhabited Pos := ⟨⟨0, 0, 0, "", ""⟩⟩

/-- `Position.advance(curr_char)`: idx and col grow by one; a newline as the
current character additionally moves to the next line and resets col. -/
def Pos.adv (p : Pos) (currChar : Option Char) : Pos :=
  if currChar = some '\n' then
    { p with idx := p.idx + 1, ln := p.ln + 1, col := 0 }
  else
    { p with idx := p.idx + 1, col := p.col + 1 }

/-! ## Tokens (`class Token`) -/

inductive TokType where
  | INT | FLOAT | STRING | IDENTIFIER | KEYWORD
  | PLUS | MINUS | MUL | DIV | POW
  | EQ | EE | NE | LT | GT | LTE | GTE
  | LPAREN | RPAREN | LSQUARE | RSQUARE
  | COMMA | ARROW | NEWLINE | EOF
deriving DecidableEq, Repr

/-- A token's payload: Python stores an int, a float or a string in
`Token.value` (or `None`).  Floats are modelled as exact rationals. -/
inductive TValue where
  | int (i : Int)
  | float (q : ℚ)
  | str (s : String)
deriving DecidableEq, Repr

structure Token where
  type : TokType
  value : Option TValue
  startPos : Pos
  endPos : Pos
deriving DecidableEq, Repr

/-- `Token.__init__` with only `start_pos` given: the end position is the
start advanced by one (`advance()` with no current character). -/
def mkTokenS (t : TokType) (v : Option TValue) (startPos : Pos) : Token :=
  ⟨t, v, startPos, startPos.adv none⟩

/-- `Token.__init__` with both `start_pos` and `end_pos` given. -/
def mkTokenSE (t : TokType) (v : Option TValue) (startPos endPos : Pos) : Token :=
  ⟨t, v, startPos, endPos⟩

/-- `Token.match(type_, value)` as the parser uses it: the value compared is
always a keyword/identifier string. -/
def Token.matches (tok : Token) (t : TokType) (v : String) : Bool :=
  tok.type = t && tok.value = some (.str v)

/-- The fixed `KEYWORDS` tuple. -/
def KEYWORDS : List String :=
  ["var", "and", "or", "not", "if", "elif", "then", "else",
   "for", "to", "step", "do", "while", "func", "end"]

/-! ## Errors (`class Error` and subclasses)

`Ctx` is `class Context`: the per-call activation record.  Its symbol
table is a reference (an index) into the store of symbol-table frames
defined with the evaluator below; Python contexts hold their table by
object reference and the table contents are mutated in place. -/

inductive Ctx where
  | mk (displayName : String) (parent : Option Ctx)
       (parentEntryPos : Option Pos) (symbolTable : Option Nat)

instance : Repr Ctx := ⟨fun _ _ => Std.Format.text "Ctx"⟩

def Ctx.displayName : Ctx → String | .mk d _ _ _ => d
def Ctx.parent : Ctx → Option Ctx | .mk _ p _ _ => p
def Ctx.parentEntryPos : Ctx → Option Pos | .mk _ _ e _ => e
def Ctx.symbolTable : Ctx → Option Nat | .mk _ _ _ s => s

/-- One error value: the two position fields, `error_name`, `error_message`,
and — for `RuntimeError_` only — the originating context. -/
structure Err where
  startPos : Option Pos
  endPos : Option Pos
  name : String
  msg : String
  ctx : Option Ctx
deriving Repr

def mkIllegalCharErr (startPos endPos : Pos) (msg : String) : Err :=
  ⟨some startPos, some endPos, "IllegalCharacterError", msg, none⟩

def mkExpectedCharErr (startPos endPos : Pos) (msg : String) : Err :=
  ⟨some startPos, some endPos, "ExpectedCharacterError", "Expected " ++ msg, none⟩

def mkInvalidSyntaxErr (startPos endPos : Pos) (msg : String) : Err :=
  ⟨some startPos, some endPos, "InvalidSyntaxError", msg, none⟩

def mkRuntimeErr (startPos endPos : Option Pos) (msg : String) (ctx : Option Ctx) : Err :=
  ⟨startPos, endPos, "RuntimeError", msg, ctx⟩

/-! ## Lexer (`class Lexer`) -/

/-- Character classes `NUM_CHARS`, `LETTERS`, `LETTERS_DIGITS` (+ `_`). -/
def isDigitChar (c : Char) : Bool := '0' ≤ c && c ≤ '9'
def isNumChar (c : Char) : Bool := isDigitChar c || c = '.'
def isLetterChar (c : Char) : Bool :=
  ('a' ≤ c && c ≤ 'z') || ('A' ≤ c && c ≤ 'Z')
def isLetterDigitUChar (c : Char) : Bool :=
  isLetterChar c || isDigitChar c || c = '_'

/-- The lexer's cursor: the full text, the current position, and the
current character (`None` past the end). -/
structure LexState where
  text : List Char
  pos : Pos
  currChar : Option Char
deriving Repr

/-- `Lexer.advance`. -/
def LexState.adv (st : LexState) : LexState :=
  let p := st.pos.adv st.currChar
  { st with
    pos := p
    currChar := if p.idx < 0 then none else st.text.get? p.idx.toNat }

/-- `Lexer.__init__`: cursor at (-1, 0, -1), then one advance. -/
def Lexer.init (fileName text : String) : LexState :=
  LexState.adv ⟨text.data, ⟨-1, 0, -1, fileName, text⟩, none⟩

/-- Value of a digit string (`int(num_str)` on the digits collected). -/
def digitsToNat (ds : List Char) : Nat :=
  ds.foldl (fun acc c => acc * 10 + (c.toNat - '0'.toNat)) 0

/-- `int(num_str)` / `float(num_str)` for the string `_make_number`
collected: digits with at most one dot.  `float(".")` raises ValueError
(the only ill-formed shape the scanner can produce). -/
def parseNumValue (intDigits fracDigits : List Char) (hasDot : Bool) : Res TValue :=
  if hasDot then
    if intDigits = [] ∧ fracDigits = [] then .exn .valueError
    else .ok (.float ((digitsToNat intDigits : ℚ) +
      (digitsToNat fracDigits : ℚ) / ((10 : ℚ) ^ fracDigits.length)))
  else .ok (.int (digitsToNat intDigits))

/-- The scanning loop of `_make_number`: consume digits and at most one
dot; a second dot halts (and is not consumed).  Returns the digits before
the dot, the digits after it, whether a dot was seen, and the state. -/
def numScan (fuel : Nat) (st : LexState) (intDigits fracDigits : List Char)
    (dotCount : Nat) : Res (List Char × List Char × Bool × LexState) :=
  match fuel with
  | 0 => .fuel
  | fuel + 1 =>
    match st.currChar with
    | some c =>
      if isNumChar c then
        if c = '.' then
          if dotCount = 1 then .ok (intDigits, fracDigits, true, st)
          else numScan fuel st.adv intDigits fracDigits 1
        else
          if dotCount = 0 then numScan fuel st.adv (intDigits ++ [c]) fracDigits 0
          else numScan fuel st.adv intDigits (fracDigits ++ [c]) 1
      else .ok (intDigits, fracDigits, dotCount = 1, st)
    | none => .ok (intDigits, fracDigits, dotCount = 1, st)

/-- `Lexer._make_number`. -/
def makeNumber (st : LexState) : Res (Token × LexState) := do
  let startPos := st.pos
  let (intDs, fracDs, hasDot, st') ← numScan (st.text.length + 2) st [] [] 0
  let v ← parseNumValue intDs fracDs hasDot
  match v with
  | .int i => .ok (mkTokenSE .INT (some (.int i)) startPos st'.pos, st')
  | _ => .ok (mkTokenSE .FLOAT (some v) startPos st'.pos, st')

/-- The scanning loop of `_make_identifier`. -/
def identScan (fuel : Nat) (st : LexState) (acc : List Char) :
    Res (List Char × LexState) :=
  match fuel with
  | 0 => .fuel
  | fuel + 1 =>
    match st.currChar with
    | some c =>
      if isLetterDigitUChar c then identScan fuel st.adv (acc ++ [c])
      else .ok (acc, st)
    | none => .ok (acc, st)

/-- `Lexer._make_identifier`: keyword lookup selects the token type. -/
def makeIdentifier (st : LexState) : Res (Token × LexState) := do
  let startPos := st.pos
  let (cs, st') ← identScan (st.text.length + 2) st []
  let idStr := String.mk cs
  let t := if idStr ∈ KEYWORDS then TokType.KEYWORD else TokType.IDENTIFIER
  .ok (mkTokenSE t (some (.str idStr)) startPos st'.pos, st')

/-- `Lexer._make_eq`. -/
def makeEq (st : LexState) : Token × LexState :=
  let startPos := st.pos
  let st' := st.adv
  if st'.currChar = some '=' then
    let st'' := st'.adv
    (mkTokenSE .EE none startPos st''.pos, st'')
  else (mkTokenSE .EQ none startPos st'.pos, st')

/-- `Lexer._make_neq`: `!` must be followed by `=`, otherwise an
ExpectedCharacter error. -/
def makeNeq (st : LexState) : (Option Token × Option Err) × LexState :=
  let startPos := st.pos
  let st' := st.adv
  if st'.currChar = some '=' then
    let st'' := st'.adv
    ((some (mkTokenSE .NE none startPos st''.pos), none), st'')
  else
    let st'' := st'.adv
    ((none, some (mkExpectedCharErr startPos st''.pos "'=' after '!'")), st'')

/-- `Lexer._make_lt`. -/
def makeLt (st : LexState) : Token × LexState :=
  let startPos := st.pos
  let st' := st.adv
  if st'.currChar = some '=' then
    let st'' := st'.adv
    (mkTokenSE .LTE none startPos st''.pos, st'')
  else (mkTokenSE .LT none startPos st'.pos, st')

/-- `Lexer._make_gt`. -/
def makeGt (st : LexState) : Token × LexState :=
  let startPos := st.pos
  let st' := st.adv
  if st'.currChar = some '=' then
    let st'' := st'.adv
    (mkTokenSE .GTE none startPos st''.pos, st'')
  else (mkTokenSE .GT none startPos st'.pos, st')

/-- `Lexer._make_minus_or_arrow`. -/
def makeMinusOrArrow (st : LexState) : Token × LexState :=
  let startPos := st.pos
  let st' := st.adv
  if st'.currChar = some '>' then
    let st'' := st'.adv
    (mkTokenSE .ARROW none startPos st''.pos, st'')
  else (mkTokenSE .MINUS none startPos st'.pos, st')

/-- `escape_character_dict` of `_make_string`. -/
def escapeCharacter (c : Char) : Char :=
  if c = 'n' then '\n' else if c = 't' then '\t' else if c = 'r' then '\r' else c

/-- The scanning loop of `_make_string`: consume until an unescaped `"` or
the end of the text; a backslash arms the escape flag. -/
def stringScan (fuel : Nat) (st : LexState) (acc : List Char)
    (escapeChar : Bool) : Res (List Char × LexState) :=
  match fuel with
  | 0 => .fuel
  | fuel + 1 =>
    match st.currChar with
    | some c =>
      if c = '"' ∧ ¬ escapeChar then .ok (acc, st)
      else if escapeChar then stringScan fuel st.adv (acc ++ [escapeCharacter c]) false
      else if c = '\\' then stringScan fuel st.adv acc true
      else stringScan fuel st.adv (acc ++ [c]) false
    | none => .ok (acc, st)

/-- `Lexer._make_string`: skip the opening quote, scan, then one more
advance (past the closing quote, or past the end when unterminated). -/
def makeString (st : LexState) : Res (Token × LexState) := do
  let startPos := st.pos
  let (cs, st') ← stringScan (st.text.length + 2) st.adv [] false
  let st'' := st'.adv
  .ok (mkTokenSE .STRING (some (.str (String.mk cs))) startPos st''.pos, st'')

/-- The main loop of `Lexer.tokenize`.  On an error the source returns the
pair `([], error)`, discarding every token already produced; the suffix
recursion below reproduces that.  Note that after `_make_eq`, `_make_lt`
and `_make_gt` the source advances once more (skipping one character) —
embedded faithfully. -/
def tokenizeLoop (fuel : Nat) (st : LexState) : Res (List Token × Option Err) :=
  match fuel with
  | 0 => .fuel
  | fuel + 1 =>
    match st.currChar with
    | none => .ok ([mkTokenS .EOF none st.pos], none)
    | some c =>
      if c = ' ' ∨ c = '\t' then tokenizeLoop fuel st.adv
      else if isNumChar c then do
        let (tok, st') ← makeNumber st
        consToken tok (← tokenizeLoop fuel st')
      else if isLetterChar c then do
        let (tok, st') ← makeIdentifier st
        consToken tok (← tokenizeLoop fuel st')
      else if c = '+' then do
        consToken (mkTokenS .PLUS none st.pos) (← tokenizeLoop fuel st.adv)
      else if c = '-' then do
        let (tok, st') := makeMinusOrArrow st
        consToken tok (← tokenizeLoop fuel st')
      else if c = '*' then do
        consToken (mkTokenS .MUL none st.pos) (← tokenizeLoop fuel st.adv)
      else if c = '/' then do
        consToken (mkTokenS .DIV none st.pos) (← tokenizeLoop fuel st.adv)
      else if c = '^' then do
        consToken (mkTokenS .POW none st.pos) (← tokenizeLoop fuel st.adv)
      else if c = '(' then do
        consToken (mkTokenS .LPAREN none st.pos) (← tokenizeLoop fuel st.adv)
      else if c = ')' then do
        consToken (mkTokenS .RPAREN none st.pos) (← tokenizeLoop fuel st.adv)
      else if c = '=' then do
        let (tok, st') := makeEq st
        consToken tok (← tokenizeLoop fuel st'.adv)
      else if c = '!' then
        match makeNeq st with
        | ((_, some e), _) => .ok ([], some e)
        | ((some tok, none), st') => do
          consToken tok (← tokenizeLoop fuel st')
        | ((none, none), _) => .ok ([], none)
      else if c = '<' then do
        let (tok, st') := makeLt st
        consToken tok (← tokenizeLoop fuel st'.adv)
      else if c = '>' then do
        let (tok, st') := makeGt st
        consToken tok (← tokenizeLoop fuel st'.adv)
      else if c = ',' then do
        consToken (mkTokenS .COMMA none st.pos) (← tokenizeLoop fuel st.adv)
      else if c = '"' then do
        let (tok, st') ← makeString st
        consToken tok (← tokenizeLoop fuel st')
      else if c = '[' then do
        consToken (mkTokenS .LSQUARE none st.pos) (← tokenizeLoop fuel st.adv)
      else if c = ']' then do
        consToken (mkTokenS .RSQUARE none st.pos) (← tokenizeLoop fuel st.adv)
      else if c = ';' ∨ c = '\n' then do
        consToken (mkTokenS .NEWLINE none st.pos) (← tokenizeLoop fuel st.adv)
      else
        let startPos := st.pos
        let st' := st.adv
        .ok ([], some (mkIllegalCharErr startPos st'.pos (String.mk ['\'', c, '\''])))
where
  /-- Prepend a produced token to the rest of the run, unless the rest
  ended in an error (then the token list is discarded, as the source's
  early `return [], error` does). -/
  consToken (tok : Token) : List Token × Option Err → Res (List Token × Option Err)
    | (_, some e) => .ok ([], some e)
    | (ts, none) => .ok (tok :: ts, none)

/-- `Lexer.tokenize`, driven by enough fuel: the loop consumes at least
one character per iteration, so `length + 2` iterations always suffice. -/
def tokenize (fileName text : String) : Res (List Token × Option Err) :=
  tokenizeLoop (text.length + 2) (Lexer.init fileName text)

/-! ## AST nodes

Each Python node class stores `start_pos`/`end_pos` computed in its
`__init__`; the smart constructors `mk...Node` below mirror those
computations, and the inductive stores the resulting positions. -/

inductive Node where
  | number (token : Token) (startPos endPos : Pos)
  | strNode (token : Token) (startPos endPos : Pos)
  | listNode (elementNodes : List Node) (startPos endPos : Pos)
  | binOp (left : Node) (op : Token) (right : Node) (startPos endPos : Pos)
  | unaryOp (op : Token) (operand : Node) (startPos endPos : Pos)
  | varAssign (varNameTok : Token) (valueNode : Node) (startPos endPos : Pos)
  | varAccess (varNameTok : Token) (startPos endPos : Pos)
  | ifNode (cases : List (Node × Node × Bool)) (elseCase : Option (Node × Bool))
      (startPos endPos : Pos)
  | forNode (varNameTok : Token) (startValue endValue : Node)
      (stepValue : Option Node) (body : Node) (shouldReturnNull : Bool)
      (startPos endPos : Pos)
  | whileNode (condition body : Node) (shouldReturnNull : Bool)
      (startPos endPos : Pos)
  | funcDef (funcNameTok : Option Token) (argNameToks : List Token)
      (body : Node) (shouldReturnNull : Bool) (startPos endPos : Pos)
  | funcCall (nodeToCall : Node) (argNodes : List Node) (startPos endPos : Pos)

instance : Inhabited Node := ⟨.listNode [] default default⟩
instance : Repr Node := ⟨fun _ _ => Std.Format.text "Node"⟩

/-- A single `(condition, body, should_return_null)` case of an if. -/
abbrev Case := Node × Node × Bool
/-- The `(body, should_return_null)` pair of an else clause. -/
abbrev ElseCase := Node × Bool

def Node.startPos : Node → Pos
  | .number _ sp _ | .strNode _ sp _ | .listNode _ sp _ | .binOp _ _ _ sp _
  | .unaryOp _ _ sp _ | .varAssign _ _ sp _ | .varAccess _ sp _
  | .ifNode _ _ sp _ | .forNode _ _ _ _ _ _ sp _ | .whileNode _ _ _ sp _
  | .funcDef _ _ _ _ sp _ | .funcCall _ _ sp _ => sp

def Node.endPos : Node → Pos
  | .number _ _ ep | .strNode _ _ ep | .listNode _ _ ep | .binOp _ _ _ _ ep
  | .unaryOp _ _ _ ep | .varAssign _ _ _ ep | .varAccess _ _ ep
  | .ifNode _ _ _ ep | .forNode _ _ _ _ _ _ _ ep | .whileNode _ _ _ _ ep
  | .funcDef _ _ _ _ _ ep | .funcCall _ _ _ ep => ep

def mkNumberNode (tok : Token) : Node := .number tok tok.startPos tok.endPos

def mkStringNode (tok : Token) : Node := .strNode tok tok.startPos tok.endPos

def mkBinOpNode (left : Node) (op : Token) (right : Node) : Node :=
  .binOp left op right left.startPos right.endPos

def mkUnaryOpNode (op : Token) (operand : Node) : Node :=
  .unaryOp op operand op.startPos operand.endPos

/-- `VarAssignmentNode.__init__`: both positions come from the name token. -/
def mkVarAssignNode (varNameTok : Token) (valueNode : Node) : Node :=
  .varAssign varNameTok valueNode varNameTok.startPos varNameTok.endPos

def mkVarAccessNode (varNameTok : Token) : Node :=
  .varAccess varNameTok varNameTok.startPos varNameTok.endPos

/-- `IfNode.__init__`: start is the first case's condition's start; the end is
the else body's end when there is one, else the last case's *condition's*
end (`self.cases[-1][0]`).  The source would raise IndexError on an empty
case list; the parser never builds one, and `default` stands in here. -/
def mkIfNode (cases : List Case) (elseCase : Option ElseCase) : Node :=
  .ifNode cases elseCase
    ((cases.headD default).1.startPos)
    (match elseCase with
     | some e => e.1.endPos
     | none => (cases.getLastD default).1.endPos)

def mkForNode (varNameTok : Token) (startValue endValue : Node)
    (stepValue : Option Node) (body : Node) (shouldReturnNull : Bool) : Node :=
  .forNode varNameTok startValue endValue stepValue body shouldReturnNull
    varNameTok.startPos body.endPos

def mkWhileNode (condition body : Node) (shouldReturnNull : Bool) : Node :=
  .whileNode condition body shouldReturnNull condition.startPos body.endPos

def mkFuncDefNode (funcNameTok : Option Token) (argNameToks : List Token)
    (body : Node) (shouldReturnNull : Bool) : Node :=
  .funcDef funcNameTok argNameToks body shouldReturnNull
    (match funcNameTok with
     | some t => t.startPos
     | none =>
       match argNameToks with
       | t :: _ => t.startPos
       | [] => body.startPos)
    body.endPos

def mkFuncCallNode (nodeToCall : Node) (argNodes : List Node) : Node :=
  .funcCall nodeToCall argNodes nodeToCall.startPos
    (match argNodes.getLast? with
     | some n => n.endPos
     | none => nodeToCall.endPos)

def mkListNode (elementNodes : List Node) (startPos endPos : Pos) : Node :=
  .listNode elementNodes startPos endPos

/-! ## Parse results (`class ParseResult`) -/

/-- `ParseResult`; the payload type varies because `register` passes through
whatever `node` the sub-result carried (an AST node, a tuple of cases, or
an optional else clause).  A Python `node` of `None` is `none` here; the
`to_register_count` field of `__init__` is a misspelling of
`to_reverse_count`, which is only ever read after `try_register` has set
it, so a single field with initial value 0 is observationally faithful. -/
structure PR (α : Type) where
  error : Option Err := none
  node : Option α := none
  advanceCount : Nat := 0
  lastRegisteredAdvanceCount : Nat := 0
  toReverseCount : Nat := 0

/-- `ParseResult.register_advancement`. -/
def PR.regAdv {α : Type} (r : PR α) : PR α :=
  { r with lastRegisteredAdvanceCount := 1, advanceCount := r.advanceCount + 1 }

/-- `ParseResult.register`: fold a sub-result in and hand back its node. -/
def PR.register {α β : Type} (r : PR α) (res : PR β) : PR α × Option β :=
  ({ r with
      lastRegisteredAdvanceCount := res.advanceCount,
      advanceCount := r.advanceCount + res.advanceCount,
      error := match res.error with | some e => some e | none => r.error },
   res.node)

/-- `ParseResult.try_register`. -/
def PR.tryRegister {α β : Type} (r : PR α) (res : PR β) : PR α × Option β :=
  match res.error with
  | some _ => ({ r with toReverseCount := res.lastRegisteredAdvanceCount }, none)
  | none => r.register res

/-- `ParseResult.success`. -/
def PR.success {α : Type} (r : PR α) (n : α) : PR α := { r with node := some n }

/-- `ParseResult.failure`: keep the first committed error. -/
def PR.failure {α : Type} (r : PR α) (e : Err) : PR α :=
  if r.error.isNone || r.lastRegisteredAdvanceCount = 0 then { r with error := some e }
  else r

/-- Repackage a failed `ParseResult` at another payload type (Python returns
the same object; its node is never read once an error is set). -/
def PR.as {α β : Type} (r : PR α) : PR β :=
  { error := r.error, node := none, advanceCount := r.advanceCount,
    lastRegisteredAdvanceCount := r.lastRegisteredAdvanceCount,
    toReverseCount := r.toReverseCount }

/-- Unpack a node that the source uses unconditionally after its error
check; `none` here would be a Python `None` flowing into code that
unpacks or dereferences it (TypeError) — unreachable for the
productions, which always set their node on success. -/
def getN {α : Type} (o : Option α) : Res α :=
  match o with
  | some a => .ok a
  | none => .exn .typeError

/-! ## Parser state (`class Parser`) -/

instance : Inhabited Token := ⟨⟨.EOF, none, default, default⟩⟩

structure PState where
  tokens : List Token
  tokenIndex : Int
  currToken : Token
deriving Repr

/-- `Parser.advance`: past the end the current token is left unchanged. -/
def PState.adv (s : PState) : PState :=
  let i := s.tokenIndex + 1
  { s with tokenIndex := i,
           currToken :=
             if 0 ≤ i ∧ i < (s.tokens.length : Int)
             then s.tokens.getD i.toNat s.currToken else s.currToken }

/-- `Parser.reverse`. -/
def PState.rev (s : PState) (amount : Nat) : PState :=
  let i := s.tokenIndex - amount
  { s with tokenIndex := i,
           currToken :=
             if 0 ≤ i ∧ i < (s.tokens.length : Int)
             then s.tokens.getD i.toNat s.currToken else s.currToken }

/-- `Parser.__init__`: cursor at -1, then one advance.  For an empty token
list the source would leave `curr_token` unset (an AttributeError on first
use); the lexer never returns an empty list on success, and the default
token stands in for that unreachable state. -/
def Parser.init (tokens : List Token) : PState :=
  PState.adv ⟨tokens, -1, default⟩

/-! ## Parser productions

One function per production of the source, mutually recursive, driven by
fuel (every call steps the fuel down once; the source's `while` loops
are the `...Loop` functions).  The source's `_bin_op` helper takes the
sub-productions as function arguments; it is specialised here to each of
its five call sites.  Loops that contain a mid-loop `return
parse_result` report that through their final `Bool` (early-return). -/

mutual

/-- `Parser._statement` up to its first parsed expression. -/
def pStatement (fuel : Nat) (s : PState) : Res (PR Node × PState) :=
  match fuel with
  | 0 => .fuel
  | fuel + 1 => do
    let pr : PR Node := {}
    let startPos := s.currToken.startPos
    let (pr, s, _) ← pSkipNewlines fuel pr s 0
    let (r, s) ← pExpr fuel s
    let (pr, stOpt) := pr.register r
    if pr.error.isSome then return (pr, s)
    let st ← getN stOpt
    pStatementsLoop fuel pr [st] true startPos s

/-- The `while True` loop of `_statement`: more statements separated by at
least one NEWLINE; a failed speculative `_expr` reverses the cursor and
(after one more pass over any newlines) ends the loop. -/
def pStatementsLoop (fuel : Nat) (pr : PR Node) (statements : List Node)
    (more : Bool) (startPos : Pos) (s : PState) : Res (PR Node × PState) :=
  match fuel with
  | 0 => .fuel
  | fuel + 1 => do
    let (pr, s, cnt) ← pSkipNewlines fuel pr s 0
    let more := if cnt = 0 then false else more
    if ¬ more then
      return (pr.success (mkListNode statements startPos s.currToken.startPos), s)
    let (r, s) ← pExpr fuel s
    let (pr, stOpt) := pr.tryRegister r
    match stOpt with
    | none => pStatementsLoop fuel pr statements false startPos (s.rev pr.toReverseCount)
    | some st => pStatementsLoop fuel pr (statements ++ [st]) more startPos s

/-- `while self.curr_token.type == TT_NEWLINE` (used twice in `_statement`). -/
def pSkipNewlines (fuel : Nat) (pr : PR Node) (s : PState) (cnt : Nat) :
    Res (PR Node × PState × Nat) :=
  match fuel with
  | 0 => .fuel
  | fuel + 1 =>
    if s.currToken.type = .NEWLINE then
      pSkipNewlines fuel pr.regAdv s.adv (cnt + 1)
    else .ok (pr, s, cnt)

/-- `Parser._expr`. -/
def pExpr (fuel : Nat) (s : PState) : Res (PR Node × PState) :=
  match fuel with
  | 0 => .fuel
  | fuel + 1 => do
    let pr : PR Node := {}
    if s.currToken.matches .KEYWORD "var" then
      let pr := pr.regAdv
      let s := s.adv
      if s.currToken.type ≠ .IDENTIFIER then
        return (pr.failure (mkInvalidSyntaxErr s.currToken.startPos s.currToken.endPos
          "Expected identifier"), s)
      let varName := s.currToken
      let pr := pr.regAdv
      let s := s.adv
      if s.currToken.type ≠ .EQ then
        return (pr.failure (mkInvalidSyntaxErr s.currToken.startPos s.currToken.endPos
          "Expected '='"), s)
      let pr := pr.regAdv
      let s := s.adv
      let (r, s) ← pExpr fuel s
      let (pr, eOpt) := pr.register r
      if pr.error.isSome then return (pr, s)
      let e ← getN eOpt
      return (pr.success (mkVarAssignNode varName e), s)
    else
      let (r, s) ← pExprBin fuel s
      let (pr, nOpt) := pr.register r
      if pr.error.isSome then
        return (pr.failure (mkInvalidSyntaxErr s.currToken.startPos s.currToken.endPos
          "Expected 'var', 'if', 'for', 'while', 'func', int, float, identifier, '+', '-', '(', '[', or 'not'"), s)
      let n ← getN nOpt
      return (pr.success n, s)

/-- `_bin_op(self._comp_expr, ((TT_KEYWORD, 'and'), (TT_KEYWORD, 'or')))`. -/
def pExprBin (fuel : Nat) (s : PState) : Res (PR Node × PState) :=
  match fuel with
  | 0 => .fuel
  | fuel + 1 => do
    let pr : PR Node := {}
    let (r, s) ← pCompExpr fuel s
    let (pr, lOpt) := pr.register r
    if pr.error.isSome then return (pr, s)
    let left ← getN lOpt
    let (pr, left, s, early) ← pExprBinLoop fuel pr left s
    if early then return (pr, s)
    return (pr.success left, s)

def pExprBinLoop (fuel : Nat) (pr : PR Node) (left : Node) (s : PState) :
    Res (PR Node × Node × PState × Bool) :=
  match fuel with
  | 0 => .fuel
  | fuel + 1 => do
    if s.currToken.matches .KEYWORD "and" ∨ s.currToken.matches .KEYWORD "or" then
      let op := s.currToken
      let pr := pr.regAdv
      let s := s.adv
      let (r, s) ← pCompExpr fuel s
      let (pr, rOpt) := pr.register r
      if pr.error.isSome then return (pr, left, s, true)
      let right ← getN rOpt
      pExprBinLoop fuel pr (mkBinOpNode left op right) s
    else return (pr, left, s, false)

/-- `Parser._comp_expr`. -/
def pCompExpr (fuel : Nat) (s : PState) : Res (PR Node × PState) :=
  match fuel with
  | 0 => .fuel
  | fuel + 1 => do
    let pr : PR Node := {}
    if s.currToken.matches .KEYWORD "not" then
      let op := s.currToken
      let pr := pr.regAdv
      let s := s.adv
      let (r, s) ← pCompExpr fuel s
      let (pr, nOpt) := pr.register r
      if pr.error.isSome then return (pr, s)
      let n ← getN nOpt
      return (pr.success (mkUnaryOpNode op n), s)
    else
      let (r, s) ← pCompBin fuel s
      let (pr, nOpt) := pr.register r
      if pr.error.isSome then
        return (pr.failure (mkInvalidSyntaxErr s.currToken.startPos s.currToken.endPos
          "Expected int, float, identifier, '+', '-', '(', '[', or 'not'"), s)
      let n ← getN nOpt
      return (pr.success n, s)

/-- `_bin_op(self._arith_expr, (EE, NE, LT, LTE, GT, GTE))`. -/
def pCompBin (fuel : Nat) (s : PState) : Res (PR Node × PState) :=
  match fuel with
  | 0 => .fuel
  | fuel + 1 => do
    let pr : PR Node := {}
    let (r, s) ← pArithExpr fuel s
    let (pr, lOpt) := pr.register r
    if pr.error.isSome then return (pr, s)
    let left ← getN lOpt
    let (pr, left, s, early) ← pCompLoop fuel pr left s
    if early then return (pr, s)
    return (pr.success left, s)

def pCompLoop (fuel : Nat) (pr : PR Node) (left : Node) (s : PState) :
    Res (PR Node × Node × PState × Bool) :=
  match fuel with
  | 0 => .fuel
  | fuel + 1 => do
    if s.currToken.type = .EE ∨ s.currToken.type = .NE ∨ s.currToken.type = .LT ∨
        s.currToken.type = .LTE ∨ s.currToken.type = .GT ∨ s.currToken.type = .GTE then
      let op := s.currToken
      let pr := pr.regAdv
      let s := s.adv
      let (r, s) ← pArithExpr fuel s
      let (pr, rOpt) := pr.register r
      if pr.error.isSome then return (pr, left, s, true)
      let right ← getN rOpt
      pCompLoop fuel pr (mkBinOpNode left op right) s
    else return (pr, left, s, false)

/-- `Parser._arith_expr` = `_bin_op(self._term, (PLUS, MINUS))`. -/
def pArithExpr (fuel : Nat) (s : PState) : Res (PR Node × PState) :=
  match fuel with
  | 0 => .fuel
  | fuel + 1 => do
    let pr : PR Node := {}
    let (r, s) ← pTerm fuel s
    let (pr, lOpt) := pr.register r
    if pr.error.isSome then return (pr, s)
    let left ← getN lOpt
    let (pr, left, s, early) ← pArithLoop fuel pr left s
    if early then return (pr, s)
    return (pr.success left, s)

def pArithLoop (fuel : Nat) (pr : PR Node) (left : Node) (s : PState) :
    Res (PR Node × Node × PState × Bool) :=
  match fuel with
  | 0 => .fuel
  | fuel + 1 => do
    if s.currToken.type = .PLUS ∨ s.currToken.type = .MINUS then
      let op := s.currToken
      let pr := pr.regAdv
      let s := s.adv
      let (r, s) ← pTerm fuel s
      let (pr, rOpt) := pr.register r
      if pr.error.isSome then return (pr, left, s, true)
      let right ← getN rOpt
      pArithLoop fuel pr (mkBinOpNode left op right) s
    else return (pr, left, s, false)

/-- `Parser._term` = `_bin_op(self._factor, (MUL, DIV))`. -/
def pTerm (fuel : Nat) (s : PState) : Res (PR Node × PState) :=
  match fuel with
  | 0 => .fuel
  | fuel + 1 => do
    let pr : PR Node := {}
    let (r, s) ← pFactor fuel s
    let (pr, lOpt) := pr.register r
    if pr.error.isSome then return (pr, s)
    let left ← getN lOpt
    let (pr, left, s, early) ← pTermLoop fuel pr left s
    if early then return (pr, s)
    return (pr.success left, s)

def pTermLoop (fuel : Nat) (pr : PR Node) (left : Node) (s : PState) :
    Res (PR Node × Node × PState × Bool) :=
  match fuel with
  | 0 => .fuel
  | fuel + 1 => do
    if s.currToken.type = .MUL ∨ s.currToken.type = .DIV then
      let op := s.currToken
      let pr := pr.regAdv
      let s := s.adv
      let (r, s) ← pFactor fuel s
      let (pr, rOpt) := pr.register r
      if pr.error.isSome then return (pr, left, s, true)
      let right ← getN rOpt
      pTermLoop fuel pr (mkBinOpNode left op right) s
    else return (pr, left, s, false)

/-- `Parser._factor`. -/
def pFactor (fuel : Nat) (s : PState) : Res (PR Node × PState) :=
  match fuel with
  | 0 => .fuel
  | fuel + 1 => do
    let pr : PR Node := {}
    let token := s.currToken
    if token.type = .PLUS ∨ token.type = .MINUS then
      let pr := pr.regAdv
      let s := s.adv
      let (r, s) ← pFactor fuel s
      let (pr, fOpt) := pr.register r
      if pr.error.isSome then return (pr, s)
      let f ← getN fOpt
      return (pr.success (mkUnaryOpNode token f), s)
    else pPower fuel s

/-- `Parser._power` = `_bin_op(self._call, (POW,), self._factor)`. -/
def pPower (fuel : Nat) (s : PState) : Res (PR Node × PState) :=
  match fuel with
  | 0 => .fuel
  | fuel + 1 => do
    let pr : PR Node := {}
    let (r, s) ← pCall fuel s
    let (pr, lOpt) := pr.register r
    if pr.error.isSome then return (pr, s)
    let left ← getN lOpt
    let (pr, left, s, early) ← pPowerLoop fuel pr left s
    if early then return (pr, s)
    return (pr.success left, s)

def pPowerLoop (fuel : Nat) (pr : PR Node) (left : Node) (s : PState) :
    Res (PR Node × Node × PState × Bool) :=
  match fuel with
  | 0 => .fuel
  | fuel + 1 => do
    if s.currToken.type = .POW then
      let op := s.currToken
      let pr := pr.regAdv
      let s := s.adv
      let (r, s) ← pFactor fuel s
      let (pr, rOpt) := pr.register r
      if pr.error.isSome then return (pr, left, s, true)
      let right ← getN rOpt
      pPowerLoop fuel pr (mkBinOpNode left op right) s
    else return (pr, left, s, false)

/-- `Parser._call`. -/
def pCall (fuel : Nat) (s : PState) : Res (PR Node × PState) :=
  match fuel with
  | 0 => .fuel
  | fuel + 1 => do
    let pr : PR Node := {}
    let (r, s) ← pAtom fuel s
    let (pr, aOpt) := pr.register r
    if pr.error.isSome then return (pr, s)
    let atom ← getN aOpt
    if s.currToken.type = .LPAREN then
      let pr := pr.regAdv
      let s := s.adv
      if s.currToken.type = .RPAREN then
        let pr := pr.regAdv
        let s := s.adv
        return (pr.success (mkFuncCallNode atom []), s)
      else
        let (r, s) ← pExpr fuel s
        let (pr, nOpt) := pr.register r
        if pr.error.isSome then
          return (pr.failure (mkInvalidSyntaxErr s.currToken.startPos s.currToken.endPos
            "Expected 'var', 'if', 'for', 'while', 'func', int, float, identifier, '+', '-', '(', ')', '[', or 'not'"), s)
        let n ← getN nOpt
        let (pr, argNodes, s, early) ← pCallArgsLoop fuel pr [n] s
        if early then return (pr, s)
        if s.currToken.type ≠ .RPAREN then
          return (pr.failure (mkInvalidSyntaxErr s.currToken.startPos s.currToken.endPos
            "Expected ',' or ')'"), s)
        let pr := pr.regAdv
        let s := s.adv
        return (pr.success (mkFuncCallNode atom argNodes), s)
    else return (pr.success atom, s)

def pCallArgsLoop (fuel : Nat) (pr : PR Node) (argNodes : List Node) (s : PState) :
    Res (PR Node × List Node × PState × Bool) :=
  match fuel with
  | 0 => .fuel
  | fuel + 1 => do
    if s.currToken.type = .COMMA then
      let pr := pr.regAdv
      let s := s.adv
      let (r, s) ← pExpr fuel s
      let (pr, nOpt) := pr.register r
      if pr.error.isSome then return (pr, argNodes, s, true)
      let n ← getN nOpt
      pCallArgsLoop fuel pr (argNodes ++ [n]) s
    else return (pr, argNodes, s, false)

/-- `Parser._atom`. -/
def pAtom (fuel : Nat) (s : PState) : Res (PR Node × PState) :=
  match fuel with
  | 0 => .fuel
  | fuel + 1 => do
    let pr : PR Node := {}
    let token := s.currToken
    if token.type = .LPAREN then
      let pr := pr.regAdv
      let s := s.adv
      let (r, s) ← pExpr fuel s
      let (pr, eOpt) := pr.register r
      if pr.error.isSome then return (pr, s)
      let e ← getN eOpt
      if s.currToken.type = .RPAREN then
        let pr := pr.regAdv
        let s := s.adv
        return (pr.success e, s)
      else
        return (pr.failure (mkInvalidSyntaxErr token.startPos token.endPos
          "Expected ')'"), s)
    else if token.type = .INT ∨ token.type = .FLOAT then
      return ((pr.regAdv).success (mkNumberNode token), s.adv)
    else if token.type = .STRING then
      return ((pr.regAdv).success (mkStringNode token), s.adv)
    else if token.type = .IDENTIFIER then
      return ((pr.regAdv).success (mkVarAccessNode token), s.adv)
    else if token.type = .LSQUARE then
      let (r, s) ← pListExpr fuel s
      let (pr, nOpt) := pr.register r
      if pr.error.isSome then return (pr, s)
      let n ← getN nOpt
      return (pr.success n, s)
    else if token.matches .KEYWORD "if" then
      let (r, s) ← pIfExpr fuel s
      let (pr, nOpt) := pr.register r
      if pr.error.isSome then return (pr, s)
      let n ← getN nOpt
      return (pr.success n, s)
    else if token.matches .KEYWORD "for" then
      let (r, s) ← pForExpr fuel s
      let (pr, nOpt) := pr.register r
      if pr.error.isSome then return (pr, s)
      let n ← getN nOpt
      return (pr.success n, s)
    else if token.matches .KEYWORD "while" then
      let (r, s) ← pWhileExpr fuel s
      let (pr, nOpt) := pr.register r
      if pr.error.isSome then return (pr, s)
      let n ← getN nOpt
      return (pr.success n, s)
    else if token.matches .KEYWORD "func" then
      let (r, s) ← pFuncDef fuel s
      let (pr, nOpt) := pr.register r
      if pr.error.isSome then return (pr, s)
      let n ← getN nOpt
      return (pr.success n, s)
    else
      return (pr.failure (mkInvalidSyntaxErr token.startPos token.endPos
        "Expected 'if', 'for', 'while', 'fun', int, float, identifier, '+', '-', '(', or '['"), s)

/-- `Parser._list_expr`. -/
def pListExpr (fuel : Nat) (s : PState) : Res (PR Node × PState) :=
  match fuel with
  | 0 => .fuel
  | fuel + 1 => do
    let pr : PR Node := {}
    let startPos := s.currToken.startPos
    if s.currToken.type ≠ .LSQUARE then
      return (pr.failure (mkInvalidSyntaxErr s.currToken.startPos s.currToken.endPos
        "Expected '['"), s)
    let pr := pr.regAdv
    let s := s.adv
    if s.currToken.type = .RSQUARE then
      let pr := pr.regAdv
      let s := s.adv
      return (pr.success (mkListNode [] startPos s.currToken.endPos), s)
    else
      let (r, s) ← pExpr fuel s
      let (pr, nOpt) := pr.register r
      if pr.error.isSome then
        return (pr.failure (mkInvalidSyntaxErr s.currToken.startPos s.currToken.endPos
          "Expected 'var', 'if', 'for', 'while', 'func', int, float, identifier, '+', '-', '(', '[', ']', or 'not'"), s)
      let n ← getN nOpt
      let (pr, elems, s, early) ← pListElemsLoop fuel pr [n] s
      if early then return (pr, s)
      if s.currToken.type ≠ .RSQUARE then
        return (pr.failure (mkInvalidSyntaxErr s.currToken.startPos s.currToken.endPos
          "Expected ',' or ']'"), s)
      let pr := pr.regAdv
      let s := s.adv
      return (pr.success (mkListNode elems startPos s.currToken.endPos), s)

def pListElemsLoop (fuel : Nat) (pr : PR Node) (elems : List Node) (s : PState) :
    Res (PR Node × List Node × PState × Bool) :=
  match fuel with
  | 0 => .fuel
  | fuel + 1 => do
    if s.currToken.type = .COMMA then
      let pr := pr.regAdv
      let s := s.adv
      let (r, s) ← pExpr fuel s
      let (pr, nOpt) := pr.register r
      if pr.error.isSome then return (pr, elems, s, true)
      let n ← getN nOpt
      pListElemsLoop fuel pr (elems ++ [n]) s
    else return (pr, elems, s, false)

/-- `Parser._if_expr`. -/
def pIfExpr (fuel : Nat) (s : PState) : Res (PR Node × PState) :=
  match fuel with
  | 0 => .fuel
  | fuel + 1 => do
    let pr : PR Node := {}
    let (r, s) ← pIfExprCases fuel "if" s
    let (pr, allOpt) := pr.register r
    if pr.error.isSome then return (pr, s)
    let (cases, elseCase) ← getN allOpt
    return (pr.success (mkIfNode cases elseCase), s)

/-- `Parser._elif_expr`. -/
def pElifExpr (fuel : Nat) (s : PState) :
    Res (PR (List Case × Option ElseCase) × PState) :=
  match fuel with
  | 0 => .fuel
  | fuel + 1 => pIfExprCases fuel "elif" s

/-- `Parser._else_expr`: a parse result whose node stays unset models the
Python `else_case = None`. -/
def pElseExpr (fuel : Nat) (s : PState) : Res (PR ElseCase × PState) :=
  match fuel with
  | 0 => .fuel
  | fuel + 1 => do
    let pr : PR ElseCase := {}
    if s.currToken.matches .KEYWORD "else" then
      let pr := pr.regAdv
      let s := s.adv
      if s.currToken.type = .NEWLINE then
        let pr := pr.regAdv
        let s := s.adv
        let (r, s) ← pStatement fuel s
        let (pr, stOpt) := pr.register r
        if pr.error.isSome then return (pr, s)
        let statements ← getN stOpt
        if s.currToken.matches .KEYWORD "end" then
          let pr := pr.regAdv
          let s := s.adv
          return (pr.success (statements, true), s)
        else
          return (pr.failure (mkInvalidSyntaxErr s.currToken.startPos s.currToken.endPos
            "Expected keyword 'end'"), s)
      else
        let (r, s) ← pExpr fuel s
        let (pr, eOpt) := pr.register r
        if pr.error.isSome then return (pr, s)
        let e ← getN eOpt
        return (pr.success (e, false), s)
    else return (pr, s)

/-- `Parser._elif_or_else_expr`. -/
def pElifOrElseExpr (fuel : Nat) (s : PState) :
    Res (PR (List Case × Option ElseCase) × PState) :=
  match fuel with
  | 0 => .fuel
  | fuel + 1 => do
    let pr : PR (List Case × Option ElseCase) := {}
    if s.currToken.matches .KEYWORD "elif" then
      let (r, s) ← pElifExpr fuel s
      let (pr, allOpt) := pr.register r
      if pr.error.isSome then return (pr, s)
      let all ← getN allOpt
      return (pr.success all, s)
    else
      let (r, s) ← pElseExpr fuel s
      let (pr, elseOpt) := pr.register r
      if pr.error.isSome then return (pr, s)
      return (pr.success ([], elseOpt), s)

/-- `Parser._if_expr_cases`.  The local `else_case` of the source is
initialised to `None` and never reassigned: the tuple unpacking
`new_cases, else_cases = all_cases` binds the else clause to the
misspelled name `else_cases`, which is never read.  Every success below
therefore carries `none` as the else case, faithfully to the source. -/
def pIfExprCases (fuel : Nat) (caseKeyword : String) (s : PState) :
    Res (PR (List Case × Option ElseCase) × PState) :=
  match fuel with
  | 0 => .fuel
  | fuel + 1 => do
    let pr : PR (List Case × Option ElseCase) := {}
    if ¬ s.currToken.matches .KEYWORD caseKeyword then
      return (pr.failure (mkInvalidSyntaxErr s.currToken.startPos s.currToken.endPos
        (s!"Expected keyword '{caseKeyword}'")), s)
    let pr := pr.regAdv
    let s := s.adv
    let (r, s) ← pExpr fuel s
    let (pr, cOpt) := pr.register r
    if pr.error.isSome then return (pr, s)
    let condition ← getN cOpt
    if ¬ s.currToken.matches .KEYWORD "then" then
      return (pr.failure (mkInvalidSyntaxErr s.currToken.startPos s.currToken.endPos
        "Expected keyword 'then'"), s)
    let pr := pr.regAdv
    let s := s.adv
    if s.currToken.type = .NEWLINE then
      let pr := pr.regAdv
      let s := s.adv
      let (r, s) ← pStatement fuel s
      let (pr, stOpt) := pr.register r
      if pr.error.isSome then return (pr, s)
      let statements ← getN stOpt
      if s.currToken.matches .KEYWORD "end" then
        let pr := pr.regAdv
        let s := s.adv
        return (pr.success ([(condition, statements, true)], none), s)
      else
        let (r, s) ← pElifOrElseExpr fuel s
        let (pr, allOpt) := pr.register r
        if pr.error.isSome then return (pr, s)
        let (newCases, _elseCasesMisspelt) ← getN allOpt
        return (pr.success ((condition, statements, true) :: newCases, none), s)
    else
      let (r, s) ← pExpr fuel s
      let (pr, eOpt) := pr.register r
      if pr.error.isSome then return (pr, s)
      let e ← getN eOpt
      let (r, s) ← pElifOrElseExpr fuel s
      let (pr, allOpt) := pr.register r
      if pr.error.isSome then return (pr, s)
      let (newCases, _elseCasesMisspelt) ← getN allOpt
      return (pr.success ((condition, e, false) :: newCases, none), s)

/-- `Parser._for_expr` up to the optional step clause. -/
def pForExpr (fuel : Nat) (s : PState) : Res (PR Node × PState) :=
  match fuel with
  | 0 => .fuel
  | fuel + 1 => do
    let pr : PR Node := {}
    if ¬ s.currToken.matches .KEYWORD "for" then
      return (pr.failure (mkInvalidSyntaxErr s.currToken.startPos s.currToken.endPos
        "Expected keyword 'for'"), s)
    let pr := pr.regAdv
    let s := s.adv
    if s.currToken.type ≠ .IDENTIFIER then
      return (pr.failure (mkInvalidSyntaxErr s.currToken.startPos s.currToken.endPos
        "Expected identifier"), s)
    let varName := s.currToken
    let pr := pr.regAdv
    let s := s.adv
    if s.currToken.type ≠ .EQ then
      return (pr.failure (mkInvalidSyntaxErr s.currToken.startPos s.currToken.endPos
        "Expected '='"), s)
    let pr := pr.regAdv
    let s := s.adv
    let (r, s) ← pExpr fuel s
    let (pr, svOpt) := pr.register r
    if pr.error.isSome then return (pr, s)
    let startValue ← getN svOpt
    if ¬ s.currToken.matches .KEYWORD "to" then
      return (pr.failure (mkInvalidSyntaxErr s.currToken.startPos s.currToken.endPos
        "Expected keyword 'to'"), s)
    let pr := pr.regAdv
    let s := s.adv
    let (r, s) ← pExpr fuel s
    let (pr, evOpt) := pr.register r
    if pr.error.isSome then return (pr, s)
    let endValue ← getN evOpt
    if s.currToken.matches .KEYWORD "step" then
      let pr := pr.regAdv
      let s := s.adv
      let (r, s) ← pExpr fuel s
      let (pr, stOpt) := pr.register r
      if pr.error.isSome then return (pr, s)
      let stepValue ← getN stOpt
      pForBody fuel pr varName startValue endValue (some stepValue) s
    else
      pForBody fuel pr varName startValue endValue none s

/-- The `'do'` keyword and body of `_for_expr`. -/
def pForBody (fuel : Nat) (pr : PR Node) (varName : Token)
    (startValue endValue : Node) (stepValue : Option Node) (s : PState) :
    Res (PR Node × PState) :=
  match fuel with
  | 0 => .fuel
  | fuel + 1 => do
    if ¬ s.currToken.matches .KEYWORD "do" then
      return (pr.failure (mkInvalidSyntaxErr s.currToken.startPos s.currToken.endPos
        "Expected keyword 'do'"), s)
    let pr := pr.regAdv
    let s := s.adv
    if s.currToken.type = .NEWLINE then
      let pr := pr.regAdv
      let s := s.adv
      let (r, s) ← pStatement fuel s
      let (pr, bOpt) := pr.register r
      if pr.error.isSome then return (pr, s)
      let body ← getN bOpt
      if ¬ s.currToken.matches .KEYWORD "end" then
        return (pr.failure (mkInvalidSyntaxErr s.currToken.startPos s.currToken.endPos
          "Expected keyword 'end'"), s)
      let pr := pr.regAdv
      let s := s.adv
      return (pr.success (mkForNode varName startValue endValue stepValue body true), s)
    else
      let (r, s) ← pExpr fuel s
      let (pr, bOpt) := pr.register r
      if pr.error.isSome then return (pr, s)
      let body ← getN bOpt
      return (pr.success (mkForNode varName startValue endValue stepValue body false), s)

/-- `Parser._while_expr`. -/
def pWhileExpr (fuel : Nat) (s : PState) : Res (PR Node × PState) :=
  match fuel with
  | 0 => .fuel
  | fuel + 1 => do
    let pr : PR Node := {}
    if ¬ s.currToken.matches .KEYWORD "while" then
      return (pr.failure (mkInvalidSyntaxErr s.currToken.startPos s.currToken.endPos
        "Expected keyword 'while'"), s)
    let pr := pr.regAdv
    let s := s.adv
    let (r, s) ← pExpr fuel s
    let (pr, cOpt) := pr.register r
    if pr.error.isSome then return (pr, s)
    let condition ← getN cOpt
    if ¬ s.currToken.matches .KEYWORD "do" then
      return (pr.failure (mkInvalidSyntaxErr s.currToken.startPos s.currToken.endPos
        "Expected keyword 'do'"), s)
    let pr := pr.regAdv
    let s := s.adv
    if s.currToken.type = .NEWLINE then
      let pr := pr.regAdv
      let s := s.adv
      let (r, s) ← pStatement fuel s
      let (pr, bOpt) := pr.register r
      if pr.error.isSome then return (pr, s)
      let body ← getN bOpt
      if ¬ s.currToken.matches .KEYWORD "end" then
        return (pr.failure (mkInvalidSyntaxErr s.currToken.startPos s.currToken.endPos
          "Expected keyword 'end'"), s)
      let pr := pr.regAdv
      let s := s.adv
      return (pr.success (mkWhileNode condition body true), s)
    else
      let (r, s) ← pExpr fuel s
      let (pr, bOpt) := pr.register r
      if pr.error.isSome then return (pr, s)
      let body ← getN bOpt
      return (pr.success (mkWhileNode condition body false), s)

/-- `Parser._func_def`, down to the `'('`. -/
def pFuncDef (fuel : Nat) (s : PState) : Res (PR Node × PState) :=
  match fuel with
  | 0 => .fuel
  | fuel + 1 => do
    let pr : PR Node := {}
    if ¬ s.currToken.matches .KEYWORD "func" then
      return (pr.failure (mkInvalidSyntaxErr s.currToken.startPos s.currToken.endPos
        "Expected keyword 'func'"), s)
    let pr := pr.regAdv
    let s := s.adv
    if s.currToken.type = .IDENTIFIER then
      let tk := s.currToken
      let pr := pr.regAdv
      let s := s.adv
      if s.currToken.type ≠ .LPAREN then
        return (pr.failure (mkInvalidSyntaxErr s.currToken.startPos s.currToken.endPos
          "Expected '('"), s)
      pFuncDefArgs fuel pr (some tk) s
    else
      if s.currToken.type ≠ .LPAREN then
        return (pr.failure (mkInvalidSyntaxErr s.currToken.startPos s.currToken.endPos
          "Expected identifier or '('"), s)
      pFuncDefArgs fuel pr none s

/-- `_func_def` from the `'('` through the parameter list. -/
def pFuncDefArgs (fuel : Nat) (pr : PR Node) (funcNameTok : Option Token)
    (s : PState) : Res (PR Node × PState) :=
  match fuel with
  | 0 => .fuel
  | fuel + 1 => do
    let pr := pr.regAdv
    let s := s.adv
    if s.currToken.type = .IDENTIFIER then
      let first := s.currToken
      let pr := pr.regAdv
      let s := s.adv
      let (pr, toks, s, early) ← pFuncArgNamesLoop fuel pr [first] s
      if early then return (pr, s)
      if s.currToken.type ≠ .RPAREN then
        return (pr.failure (mkInvalidSyntaxErr s.currToken.startPos s.currToken.endPos
          "Expected ',' or ')'"), s)
      pFuncDefBody fuel pr funcNameTok toks s
    else
      if s.currToken.type ≠ .RPAREN then
        return (pr.failure (mkInvalidSyntaxErr s.currToken.startPos s.currToken.endPos
          "Expected identifier or ')'"), s)
      pFuncDefBody fuel pr funcNameTok [] s

def pFuncArgNamesLoop (fuel : Nat) (pr : PR Node) (toks : List Token)
    (s : PState) : Res (PR Node × List Token × PState × Bool) :=
  match fuel with
  | 0 => .fuel
  | fuel + 1 => do
    if s.currToken.type = .COMMA then
      let pr := pr.regAdv
      let s := s.adv
      if s.currToken.type ≠ .IDENTIFIER then
        return (pr.failure (mkInvalidSyntaxErr s.currToken.startPos s.currToken.endPos
          "Expected identifier"), toks, s, true)
      let tk := s.currToken
      let pr := pr.regAdv
      let s := s.adv
      pFuncArgNamesLoop fuel pr (toks ++ [tk]) s
    else return (pr, toks, s, false)

/-- `_func_def` after the parameter list: an arrow body, or a block body.
The arrow branch builds `FuncDefinitionNode(..., body_expr, False)`.  The
block branch parses its statements into the local `body`, but then
constructs `FuncDefinitionNode(func_name_token, arg_name_tokens,
body_expr, True)`: the name `body_expr` is assigned only in the arrow
branch, which has already returned, so reaching that line raises
UnboundLocalError for every block-form function definition. -/
def pFuncDefBody (fuel : Nat) (pr : PR Node) (funcNameTok : Option Token)
    (argNameToks : List Token) (s : PState) : Res (PR Node × PState) :=
  match fuel with
  | 0 => .fuel
  | fuel + 1 => do
    let pr := pr.regAdv
    let s := s.adv
    if s.currToken.type = .ARROW then
      let pr := pr.regAdv
      let s := s.adv
      let (r, s) ← pExpr fuel s
      let (pr, bOpt) := pr.register r
      if pr.error.isSome then return (pr, s)
      let bodyExpr ← getN bOpt
      return (pr.success (mkFuncDefNode funcNameTok argNameToks bodyExpr false), s)
    if s.currToken.type ≠ .NEWLINE then
      return (pr.failure (mkInvalidSyntaxErr s.currToken.startPos s.currToken.endPos
        "Expected '->' or newline character"), s)
    let pr := pr.regAdv
    let s := s.adv
    let (r, s) ← pStatement fuel s
    let (pr, _bOpt) := pr.register r
    if pr.error.isSome then return (pr, s)
    if ¬ s.currToken.matches .KEYWORD "end" then
      return (pr.failure (mkInvalidSyntaxErr s.currToken.startPos s.currToken.endPos
        "Expected keyword 'end'"), s)
    let _pr := pr.regAdv
    let _s := s.adv
    Res.exn .unboundLocalError

end

/-- `Parser.parse`: parse `statements` then require EOF (the error message
below, stray inner quote included, is the source's verbatim). -/
def Parser.parse (fuel : Nat) (s : PState) : Res (PR Node × PState) := do
  let (pr, s) ← pStatement fuel s
  if pr.error.isNone ∧ s.currToken.type ≠ .EOF then
    return (pr.failure (mkInvalidSyntaxErr s.currToken.startPos s.currToken.endPos
      "Expected '+', '-', '*', '/', '^', '==', '!=', '<', '>', <=', '>=', 'and' or 'or'"), s)
  return (pr, s)

/-! ## Values (`class Value` and subclasses)

Every value carries an optional start/end position and an optional
context (`set_pos` / `set_context`).  A Python list may hold `None`
entries (the interpreter's list visitor appends `register`'s result even
when it was an error), so list elements are `Option Value`.  Python's
shared, in-place-mutated list buffers (`List.copy` shares `elements`;
`append`/`pop`/`extend` mutate them) are modelled value-semantically: no
theorem below observes buffer aliasing. -/

mutual
inductive Value where
  | mk (payload : VPayload) (startPos endPos : Option Pos) (ctx : Option Ctx)

inductive VPayload where
  | number (v : ℚ)
  | str (s : String)
  | list (elements : List (Option Value))
  | func (funcName : String) (argNames : List String) (body : Node)
      (shouldReturnNull : Bool)
  | builtin (funcName : String)
end

instance : Repr Value := ⟨fun _ _ => Std.Format.text "Value"⟩

def Value.payload : Value → VPayload | .mk p _ _ _ => p
def Value.startPos : Value → Option Pos | .mk _ sp _ _ => sp
def Value.endPos : Value → Option Pos | .mk _ _ ep _ => ep
def Value.ctx : Value → Option Ctx | .mk _ _ _ c => c

/-- `Value.set_pos`. -/
def Value.setPos (v : Value) (sp ep : Option Pos) : Value := .mk v.payload sp ep v.ctx

/-- `Value.set_context`. -/
def Value.setCtx (v : Value) (c : Option Ctx) : Value := .mk v.payload v.startPos v.endPos c

/-- Each concrete class's `copy` builds a like value with the same
positions and context; `List.copy` shares its element buffer (not
observable here, lists being value-semantic in this embedding). -/
def Value.copy (v : Value) : Value := v

/-- A fresh `Number(q).set_context(c)` (no positions). -/
def vNumber (q : ℚ) (c : Option Ctx) : Value := ⟨.number q, none, none, c⟩

/-- A fresh `String(s).set_context(c)` (no positions). -/
def vString (s : String) (c : Option Ctx) : Value := ⟨.str s, none, none, c⟩

/-- The preallocated `Number.null` / `Number.false` (value 0). -/
def numberNull : Value := ⟨.number 0, none, none, none⟩
def numberFalse : Value := ⟨.number 0, none, none, none⟩
def numberTrue : Value := ⟨.number 1, none, none, none⟩

/-- `Number.math_PI = Number(math.pi)`: the IEEE-754 double closest to π,
an exact rational. -/
def numberMathPi : Value :=
  ⟨.number ((884279719003555 : ℚ) / 281474976710656), none, none, none⟩

/-- `Value.is_true`: `Number` is true iff non-zero, `String` iff non-empty;
every other class (lists included — `List` does not override it) uses the
base `False`. -/
def Value.isTrue : Value → Bool
  | ⟨.number q, _, _, _⟩ => q ≠ 0
  | ⟨.str s, _, _, _⟩ => s.length > 0
  | _ => false

/-- The base `Value.illegal_operation(self, other)` with genuine `Value`
arguments (as `List` and the base class call it): an IllegalOperationError
runtime error carrying the value's own positions and context. -/
def Value.illegalOperation (self : Value) : Err :=
  mkRuntimeErr self.startPos self.endPos "IllegalOperationError" self.ctx

/-- `Value.illegal_operation(self.start_pos, self.end_pos)` as `Number` and
`String` call it on unsupported operand types: the unbound method receives
a `Position` (or `None`) as `self`, and evaluating `self.start_pos` on it
raises AttributeError. -/
def illegalOperationOnPos : Res (Option Value × Option Err) := .exn .attributeError

/-- Python `int(x)` on a number: truncation toward zero. -/
def pyInt (q : ℚ) : Int := q.num.tdiv q.den

/-- Python `a and b` on numbers: `b` if `a` is truthy (non-zero), else `a`. -/
def pyAnd (a b : ℚ) : ℚ := if a = 0 then a else b

/-- Python `a or b` on numbers: `a` if `a` is truthy (non-zero), else `b`. -/
def pyOr (a b : ℚ) : ℚ := if a = 0 then b else a

/-- Python `s * k` string repetition (`k ≤ 0` gives the empty string). -/
def pyStrMul (s : String) (k : Int) : String :=
  if k ≤ 0 then "" else String.join (List.replicate k.toNat s)

/-- Python list indexing `xs[i]` with a numeric index, as seen through the
source's bare `try/except`: an integral index in `[-n, n)` selects an
element (negative counts from the end); an out-of-range or non-integral
index (IndexError / TypeError) fails. -/
def pyListGet {α : Type} (xs : List α) (q : ℚ) : Option α :=
  if q.den = 1 then
    let i := q.num
    let n : Int := xs.length
    if 0 ≤ i ∧ i < n then xs.get? i.toNat
    else if -n ≤ i ∧ i < 0 then xs.get? (n + i).toNat
    else none
  else none

/-- Python `xs.pop(i)` through a bare `try/except`: the removed element and
the remaining list, or failure. -/
def pyListPop {α : Type} (xs : List α) (q : ℚ) : Option (α × List α) :=
  if q.den = 1 then
    let i := q.num
    let n : Int := xs.length
    let j : Int := if 0 ≤ i then i else n + i
    if 0 ≤ j ∧ j < n then
      match xs.get? j.toNat with
      | some x => some (x, xs.take j.toNat ++ xs.drop (j.toNat + 1))
      | none => none
    else none
  else none

/-- `add` (`+`), dispatched on the left value's class as
`_visit_BinOpNode` does.  `Number.add`/`String.add` hit the broken
`Value.illegal_operation(self.start_pos, self.end_pos)` call on a
non-matching right operand (AttributeError); `List.add` appends the right
operand (sharing its buffer with the copy); other classes use the base
method, which returns a proper IllegalOperation error. -/
def Value.add (self other : Value) : Res (Option Value × Option Err) :=
  match self.payload with
  | .number a =>
    match other.payload with
    | .number b => .ok (some (vNumber (a + b) self.ctx), none)
    | _ => illegalOperationOnPos
  | .str a =>
    match other.payload with
    | .str b => .ok (some (vString (a ++ b) self.ctx), none)
    | _ => illegalOperationOnPos
  | .list elems =>
    .ok (some (.mk (.list (elems ++ [some other])) self.startPos self.endPos self.ctx), none)
  | _ => .ok (none, some self.illegalOperation)

/-- `subtract` (`-`): numbers subtract; `List.subtract` removes the element
at the (possibly negative) index or reports an out-of-bounds runtime
error; `Number.subtract` on a non-number raises AttributeError (broken
`illegal_operation` call); others use the base method. -/
def Value.subtract (self other : Value) : Res (Option Value × Option Err) :=
  match self.payload with
  | .number a =>
    match other.payload with
    | .number b => .ok (some (vNumber (a - b) self.ctx), none)
    | _ => illegalOperationOnPos
  | .list elems =>
    match other.payload with
    | .number q =>
      match pyListPop elems q with
      | some (_, rest) =>
        .ok (some (.mk (.list rest) self.startPos self.endPos self.ctx), none)
      | none =>
        .ok (none, some (mkRuntimeErr other.startPos other.endPos
          "Element at this index could not be removed from list because index is out of bounds"
          self.ctx))
    | _ => .ok (none, some self.illegalOperation)
  | _ => .ok (none, some self.illegalOperation)

/-- `multiply` (`*`): numbers multiply; `String.multiply` repeats by
`int(other.value)`; `List.multiply` concatenates two lists; the broken
`illegal_operation` call raises AttributeError for `Number`/`String`
against unsupported operands, while `List` uses the base method. -/
def Value.multiply (self other : Value) : Res (Option Value × Option Err) :=
  match self.payload with
  | .number a =>
    match other.payload with
    | .number b => .ok (some (vNumber (a * b) self.ctx), none)
    | _ => illegalOperationOnPos
  | .str a =>
    match other.payload with
    | .number b => .ok (some (vString (pyStrMul a (pyInt b)) self.ctx), none)
    | _ => illegalOperationOnPos
  | .list elems =>
    match other.payload with
    | .list moreElems =>
      .ok (some (.mk (.list (elems ++ moreElems)) self.startPos self.endPos self.ctx), none)
    | _ => .ok (none, some self.illegalOperation)
  | _ => .ok (none, some self.illegalOperation)

/-- `divide_by` (`/`): `Number.divide_by` divides, with a "Division by
zero" runtime error at the divisor's positions when the divisor is zero;
`List.divide_by` indexes the list (negative indices count from the end),
with an out-of-bounds runtime error otherwise; `Number` against a
non-number raises AttributeError (broken `illegal_operation` call). -/
def Value.divideBy (self other : Value) : Res (Option Value × Option Err) :=
  match self.payload with
  | .number a =>
    match other.payload with
    | .number b =>
      if b = 0 then
        .ok (none, some (mkRuntimeErr other.startPos other.endPos
          "Division by zero" self.ctx))
      else .ok (some (vNumber (a / b) self.ctx), none)
    | _ => illegalOperationOnPos
  | .list elems =>
    match other.payload with
    | .number q =>
      match pyListGet elems q with
      | some elem => .ok (elem, none)
      | none =>
        .ok (none, some (mkRuntimeErr other.startPos other.endPos
          "Element at this index could not be retrieved from list because index is out of bounds"
          self.ctx))
    | _ => .ok (none, some self.illegalOperation)
  | _ => .ok (none, some self.illegalOperation)

/-- `power` (`^`): `self.value ** other.value`.  Only integral exponents
stay in the exact fragment (`0 ** negative` raises ZeroDivisionError); a
fractional exponent produces a host float or complex and is left
unmodelled.  A non-number right operand raises AttributeError. -/
def Value.power (self other : Value) : Res (Option Value × Option Err) :=
  match self.payload with
  | .number a =>
    match other.payload with
    | .number b =>
      if b.den = 1 then
        if a = 0 ∧ b.num < 0 then .exn .zeroDivisionError
        else .ok (some (vNumber (a ^ b.num) self.ctx), none)
      else .unmodelled
    | _ => illegalOperationOnPos
  | _ => .ok (none, some self.illegalOperation)

/-- Comparisons (`Number.eq` ... `Number.gte`): 1 or 0 on number pairs;
AttributeError against non-numbers; base IllegalOperation otherwise. -/
def numberCompare (self other : Value) (cmp : ℚ → ℚ → Bool) :
    Res (Option Value × Option Err) :=
  match self.payload with
  | .number a =>
    match other.payload with
    | .number b => .ok (some (vNumber (if cmp a b then 1 else 0) self.ctx), none)
    | _ => illegalOperationOnPos
  | _ => .ok (none, some self.illegalOperation)

def Value.eqOp (self other : Value) : Res (Option Value × Option Err) :=
  numberCompare self other (fun a b => a = b)
def Value.neqOp (self other : Value) : Res (Option Value × Option Err) :=
  numberCompare self other (fun a b => a ≠ b)
def Value.ltOp (self other : Value) : Res (Option Value × Option Err) :=
  numberCompare self other (fun a b => a < b)
def Value.lteOp (self other : Value) : Res (Option Value × Option Err) :=
  numberCompare self other (fun a b => a ≤ b)
def Value.gtOp (self other : Value) : Res (Option Value × Option Err) :=
  numberCompare self other (fun a b => b < a)
def Value.gteOp (self other : Value) : Res (Option Value × Option Err) :=
  numberCompare self other (fun a b => b ≤ a)

/-- `Number.and_`: `Number(int(self.value and other.value))` — Python's
`and` keeps an operand (it does not booleanise), and `int` truncates it.
AttributeError against a non-number; base IllegalOperation otherwise. -/
def Value.andOp (self other : Value) : Res (Option Value × Option Err) :=
  match self.payload with
  | .number a =>
    match other.payload with
    | .number b => .ok (some (vNumber (pyInt (pyAnd a b)) self.ctx), none)
    | _ => illegalOperationOnPos
  | _ => .ok (none, some self.illegalOperation)

/-- `Number.or_`: `Number(int(self.value or other.value))`. -/
def Value.orOp (self other : Value) : Res (Option Value × Option Err) :=
  match self.payload with
  | .number a =>
    match other.payload with
    | .number b => .ok (some (vNumber (pyInt (pyOr a b)) self.ctx), none)
    | _ => illegalOperationOnPos
  | _ => .ok (none, some self.illegalOperation)

/-- `Number.not_` (the only class overriding it, with a unary signature):
0 becomes 1, anything else 0.  On every other class the interpreter's
`result.not_()` call hits the base two-argument `Value.not_` with a
missing argument: TypeError. -/
def Value.notOp (self : Value) : Res (Option Value × Option Err) :=
  match self.payload with
  | .number q => .ok (some (vNumber (if q = 0 then 1 else 0) self.ctx), none)
  | _ => .exn .typeError

/-! ## String forms (`__str__` / `__repr__`)

Decimal rendering of host numbers is modelled as exact-rational
rendering; no theorem below depends on string forms. -/

/-- Rendering of `str(number)` in the exact-rational model. -/
def numRender (q : ℚ) : String :=
  if q.den = 1 then toString q.num else toString q.num ++ "/" ++ toString q.den

mutual
/-- Python `str(value)` (`print`, list element rendering). -/
def Value.strForm : Value → String
  | ⟨.number q, _, _, _⟩ => numRender q
  | ⟨.str s, _, _, _⟩ => s
  | ⟨.list elems, _, _, _⟩ => String.intercalate ", " (elemsStrList elems)
  | ⟨.func n _ _ _, _, _, _⟩ => "<function " ++ n ++ ">"
  | ⟨.builtin n, _, _, _⟩ => "<built-in function " ++ n ++ ">"

def elemsStrList : List (Option Value) → List String
  | [] => []
  | none :: rest => "None" :: elemsStrList rest
  | some v :: rest => Value.strForm v :: elemsStrList rest
end

/-! ## Symbol tables and the frame store

`class SymbolTable` instances are mutable objects shared by reference
between contexts; the `Store` below is the heap of frames, and a context
holds a frame index. -/

structure Frame where
  symbols : List (String × Value)
  parent : Option Nat

/-- The evaluator's world: the heap of symbol-table frames, plus the
process's standard output and standard input (for the built-ins). -/
structure Store where
  frames : List Frame
  output : List String
  stdin : List String

def listModify {α : Type} (xs : List α) (i : Nat) (f : α → α) : List α :=
  match xs, i with
  | [], _ => []
  | x :: rest, 0 => f x :: rest
  | x :: rest, i + 1 => x :: listModify rest i f

/-- Dict write: replace the binding or append a fresh one. -/
def symSet (syms : List (String × Value)) (name : String) (v : Value) :
    List (String × Value) :=
  if (syms.lookup name).isSome then
    syms.map (fun p => if p.1 = name then (p.1, v) else p)
  else syms ++ [(name, v)]

/-- Allocate a fresh symbol-table frame; its index is the reference. -/
def allocFrame (store : Store) (fr : Frame) : Nat × Store :=
  (store.frames.length, { store with frames := store.frames ++ [fr] })

/-- `SymbolTable.get(var_name)`.  A hit in the current frame returns the
value.  On a miss with a parent, the source runs
`return self.parent.get(var_name, None)` — but `get` takes a single
argument besides `self`, so Python raises TypeError before the parent
frame is ever consulted.  Only a miss in a parentless table returns
`None`. -/
def SymbolTable.get (store : Store) (ref : Nat) (name : String) :
    Res (Option Value) :=
  match store.frames.get? ref with
  | none => .exn .attributeError
  | some fr =>
    match fr.symbols.lookup name with
    | some v => .ok (some v)
    | none =>
      match fr.parent with
      | some _ => .exn .typeError
      | none => .ok none

/-- `SymbolTable.set(var_name, value)`: writes only to the given frame. -/
def SymbolTable.set (store : Store) (ref : Nat) (name : String) (v : Value) :
    Store :=
  { store with
    frames := listModify store.frames ref
      (fun fr => { fr with symbols := symSet fr.symbols name v }) }

/-! ## Runtime results and call machinery -/

/-- `class RuntimeResult`: the `(value, error)` state a visitor builds. -/
structure RTRes where
  value : Option Value := none
  error : Option Err := none
deriving Repr

/-- A visit returned neither a value nor an error: unreachable for the
source's visitors, which always set one of the two; the Python `None`
would break at its first attribute access. -/
def getV (o : Option Value) : Res Value :=
  match o with
  | some v => .ok v
  | none => .exn .attributeError

/-- A token value read as a string (identifier/keyword tokens); the parser
never feeds anything else to the visitors that use this. -/
def tokStr (t : Token) : Res String :=
  match t.value with
  | some (.str s) => .ok s
  | _ => .unmodelled

def tokStrList (ts : List Token) : Res (List String) :=
  match ts with
  | [] => .ok []
  | t :: rest => do
    let s ← tokStr t
    let ss ← tokStrList rest
    .ok (s :: ss)

/-- `BaseFunction.__init__`: a missing (or falsy) name prints as
`<default_func>`. -/
def baseFuncName (n : Option String) : String :=
  match n with
  | some s => if s = "" then "<default_func>" else s
  | none => "<default_func>"

/-- `BaseFunction.generate_func_context`: a fresh context whose parent is
the function value's stored context, and a fresh symbol-table frame whose
parent is that context's table.  A function value with no context crashes
on `func_context.parent.symbol_table` (AttributeError) — the interpreter
always sets one before calling. -/
def generateFuncContext (v : Value) (funcName : String) (store : Store) :
    Res (Ctx × Store) :=
  match v.ctx with
  | none => .exn .attributeError
  | some parentCtx =>
    let (ref, store) := allocFrame store ⟨[], parentCtx.symbolTable⟩
    .ok (⟨funcName, some parentCtx, v.startPos, some ref⟩, store)

/-- `BaseFunction._check_args`: arity errors. -/
def checkArgs (v : Value) (funcName : String) (argNames : List String)
    (args : List Value) : Option Err :=
  if args.length > argNames.length then
    let excess := args.length - argNames.length
    some (mkRuntimeErr v.startPos v.endPos
      (s!"{excess} too many arguments passed into {funcName}") v.ctx)
  else if args.length < argNames.length then
    let missing := argNames.length - args.length
    some (mkRuntimeErr v.startPos v.endPos
      (s!"{missing} too few arguments passed into {funcName}") v.ctx)
  else none

/-- `BaseFunction._populate_args`: bind each argument (its context updated
to the new context) in the new frame. -/
def populateArgs (argNames : List String) (args : List Value) (funcCtx : Ctx)
    (store : Store) : Res Store :=
  match funcCtx.symbolTable with
  | none => .exn .attributeError
  | some ref =>
    .ok ((argNames.zip args).foldl
      (fun st p => SymbolTable.set st ref p.1 (p.2.setCtx (some funcCtx))) store)

/-- `execute_{name}.arg_names` for each built-in the source defines; any
other name would reach `_no_visit_method`, which has no `arg_names`
attribute (AttributeError). -/
def builtinArgNames : String → Option (List String)
  | "print" => some ["value"]
  | "print_ret" => some ["value"]
  | "input" => some []
  | "input_int" => some []
  | "clear" => some []
  | "is_number" => some ["value"]
  | "is_string" => some ["value"]
  | "is_list" => some ["value"]
  | "is_function" => some ["value"]
  | "append" => some ["list", "value"]
  | "pop" => some ["list", "index"]
  | "extend" => some ["listA", "listB"]
  | _ => none

/-- Fetch one populated built-in argument from the call frame. -/
def builtinArg (fctx : Ctx) (store : Store) (name : String) :
    Res (Option Value) :=
  match fctx.symbolTable with
  | none => .exn .attributeError
  | some ref => SymbolTable.get store ref name

/-- Python `int(text)` for `input_int`: surrounding blanks, an optional
sign, then digits. -/
def pyParseInt (s : String) : Option Int :=
  let isBlank : Char → Bool := fun c => c = ' ' ∨ c = '\t' ∨ c = '\n' ∨ c = '\r'
  let cs := s.data.dropWhile isBlank
  let cs := (cs.reverse.dropWhile isBlank).reverse
  match cs with
  | '-' :: ds => if ds ≠ [] ∧ ds.all isDigitChar then some (-(digitsToNat ds : Int)) else none
  | '+' :: ds => if ds ≠ [] ∧ ds.all isDigitChar then some ((digitsToNat ds : Int)) else none
  | ds => if ds ≠ [] ∧ ds.all isDigitChar then some ((digitsToNat ds : Int)) else none

/-- The retry loop of `execute_input_int`. -/
def inputIntLoop (fuel : Nat) (store : Store) : Res (RTRes × Store) :=
  match fuel with
  | 0 => .fuel
  | fuel + 1 =>
    match store.stdin with
    | [] => .exn .eofError
    | line :: rest =>
      let store := { store with stdin := rest }
      match pyParseInt line with
      | some n => .ok (⟨some ⟨.number (n : ℚ), none, none, none⟩, none⟩, store)
      | none =>
        inputIntLoop fuel
          { store with output := store.output ++ [s!"'{line}' must be an integer. Try again!"] }

/-- The bodies of the built-in functions (`execute_print` ...), after the
arguments have been bound in `fctx`'s frame.  `v` is the called
`BuiltInFunction` value (error positions come from it).  `clear`'s
`os.system` call is a host side effect outside the model; list-mutating
built-ins return their specified values (buffer mutation is not
observable here). -/
def runBuiltin (fuel : Nat) (v : Value) (funcName : String) (fctx : Ctx)
    (store : Store) : Res (RTRes × Store) :=
  match funcName with
  | "print" => do
    let vOpt ← builtinArg fctx store "value"
    let rendered := match vOpt with | some w => w.strForm | none => "None"
    .ok (⟨some numberNull, none⟩, { store with output := store.output ++ [rendered] })
  | "print_ret" => do
    let vOpt ← builtinArg fctx store "value"
    let rendered := match vOpt with | some w => w.strForm | none => "None"
    .ok (⟨some (vString rendered none), none⟩, store)
  | "input" =>
    (match store.stdin with
     | [] => .exn .eofError
     | line :: rest => .ok (⟨some (vString line none), none⟩, { store with stdin := rest }))
  | "input_int" => inputIntLoop fuel store
  | "clear" => .ok (⟨some numberNull, none⟩, store)
  | "is_number" => do
    let vOpt ← builtinArg fctx store "value"
    let b := match vOpt with | some ⟨.number _, _, _, _⟩ => true | _ => false
    .ok (⟨some (if b then numberTrue else numberFalse), none⟩, store)
  | "is_string" => do
    let vOpt ← builtinArg fctx store "value"
    let b := match vOpt with | some ⟨.str _, _, _, _⟩ => true | _ => false
    .ok (⟨some (if b then numberTrue else numberFalse), none⟩, store)
  | "is_list" => do
    let vOpt ← builtinArg fctx store "value"
    let b := match vOpt with | some ⟨.list _, _, _, _⟩ => true | _ => false
    .ok (⟨some (if b then numberTrue else numberFalse), none⟩, store)
  | "is_function" => do
    let vOpt ← builtinArg fctx store "value"
    let b := match vOpt with
      | some ⟨.func _ _ _ _, _, _, _⟩ => true
      | some ⟨.builtin _, _, _, _⟩ => true
      | _ => false
    .ok (⟨some (if b then numberTrue else numberFalse), none⟩, store)
  | "append" => do
    let listOpt ← builtinArg fctx store "list"
    let _valOpt ← builtinArg fctx store "value"
    match listOpt with
    | some ⟨.list _, _, _, _⟩ => .ok (⟨some numberNull, none⟩, store)
    | _ =>
      .ok (⟨none, some (mkRuntimeErr v.startPos v.endPos
        "First argument must be list" (some fctx))⟩, store)
  | "pop" => do
    let listOpt ← builtinArg fctx store "list"
    let idxOpt ← builtinArg fctx store "index"
    match listOpt with
    | some ⟨.list elems, _, _, _⟩ =>
      (match idxOpt with
       | some ⟨.number q, _, _, _⟩ =>
         (match pyListPop elems q with
          | some (removed, _) => .ok (⟨removed, none⟩, store)
          | none =>
            .ok (⟨none, some (mkRuntimeErr v.startPos v.endPos
              "Element at this index could not be removed from list because index is out of bounds"
              (some fctx))⟩, store))
       | _ =>
         .ok (⟨none, some (mkRuntimeErr v.startPos v.endPos
           "Second argument must be number" (some fctx))⟩, store))
    | _ =>
      .ok (⟨none, some (mkRuntimeErr v.startPos v.endPos
        "First argument must be list" (some fctx))⟩, store)
  | "extend" => do
    let listAOpt ← builtinArg fctx store "listA"
    let listBOpt ← builtinArg fctx store "listB"
    match listAOpt with
    | some ⟨.list _, _, _, _⟩ =>
      (match listBOpt with
       | some ⟨.list _, _, _, _⟩ => .ok (⟨some numberNull, none⟩, store)
       | _ =>
         .ok (⟨none, some (mkRuntimeErr v.startPos v.endPos
           "Second argument must be list" (some fctx))⟩, store))
    | _ =>
      .ok (⟨none, some (mkRuntimeErr v.startPos v.endPos
        "First argument must be list" (some fctx))⟩, store)
  | _ => .exn .attributeError

/-! ## Interpreter (`class Interpreter`)

`visit` dispatches on the node variant; `execute` is `Function.execute` /
`BuiltInFunction.execute` / the base `Value.execute`.  The source drives
loops and recursion directly; here they take fuel (every call steps it
down once).  Propagating a sub-visit's error returns a result whose value
slot is empty (the visitor's own `RuntimeResult` has no value), even when
the sub-result carried one. -/

mutual

def visit (fuel : Nat) (node : Node) (ctx : Ctx) (store : Store) :
    Res (RTRes × Store) :=
  match fuel with
  | 0 => .fuel
  | fuel + 1 =>
    match node with
    | .number tok sp ep =>
      (match tok.value with
       | some (.int i) => .ok (⟨some ⟨.number (i : ℚ), some sp, some ep, some ctx⟩, none⟩, store)
       | some (.float q) => .ok (⟨some ⟨.number q, some sp, some ep, some ctx⟩, none⟩, store)
       | _ => .unmodelled)
    | .strNode tok sp ep =>
      (match tok.value with
       | some (.str s) => .ok (⟨some ⟨.str s, some sp, some ep, some ctx⟩, none⟩, store)
       | _ => .unmodelled)
    | .listNode elemNodes sp ep =>
      -- `_visit_ListNode`: the element loop's error check lacks its
      -- `return`, so evaluation continues past errors and the final
      -- `success` leaves the (last) error set alongside the list value.
      visitListElems fuel elemNodes [] none sp ep ctx store
    | .binOp leftN opTok rightN sp ep => do
      let (r, store) ← visit fuel leftN ctx store
      if r.error.isSome then return (⟨none, r.error⟩, store)
      let left ← getV r.value
      let (r, store) ← visit fuel rightN ctx store
      if r.error.isSome then return (⟨none, r.error⟩, store)
      let right ← getV r.value
      let res ←
        if opTok.type = .PLUS then Value.add left right
        else if opTok.type = .MINUS then Value.subtract left right
        else if opTok.type = .MUL then Value.multiply left right
        else if opTok.type = .DIV then Value.divideBy left right
        else if opTok.type = .POW then Value.power left right
        else if opTok.type = .EE then Value.eqOp left right
        else if opTok.type = .NE then Value.neqOp left right
        else if opTok.type = .LT then Value.ltOp left right
        else if opTok.type = .LTE then Value.lteOp left right
        else if opTok.type = .GT then Value.gtOp left right
        else if opTok.type = .GTE then Value.gteOp left right
        else if opTok.matches .KEYWORD "and" then Value.andOp left right
        else if opTok.matches .KEYWORD "or" then Value.orOp left right
        else .exn .unboundLocalError  -- `result` never assigned: UnboundLocalError
      (match res with
       | (_, some e) => .ok (⟨none, some e⟩, store)
       | (some v, none) => .ok (⟨some (v.setPos (some sp) (some ep)), none⟩, store)
       | (none, none) => .exn .attributeError)  -- `None.set_pos`
    | .unaryOp opTok operandN sp ep => do
      let (r, store) ← visit fuel operandN ctx store
      if r.error.isSome then return (⟨none, r.error⟩, store)
      let v ← getV r.value
      let res ←
        if opTok.type = .MINUS then Value.multiply v ⟨.number (-1), none, none, none⟩
        else if opTok.matches .KEYWORD "not" then Value.notOp v
        else .ok (some v, none)
      (match res with
       | (_, some e) => .ok (⟨none, some e⟩, store)
       | (some w, none) => .ok (⟨some (w.setPos (some sp) (some ep)), none⟩, store)
       | (none, none) => .exn .attributeError)
    | .varAssign nameTok valueNode _ _ => do
      let varName ← tokStr nameTok
      let (r, store) ← visit fuel valueNode ctx store
      if r.error.isSome then return (⟨none, r.error⟩, store)
      let v ← getV r.value
      (match ctx.symbolTable with
       | none => .exn .attributeError
       | some ref => .ok (⟨some v, none⟩, SymbolTable.set store ref varName v))
    | .varAccess nameTok sp ep => do
      let varName ← tokStr nameTok
      (match ctx.symbolTable with
       | none => .exn .attributeError
       | some ref => do
         let vOpt ← SymbolTable.get store ref varName
         match vOpt with
         | none =>
           .ok (⟨none, some (mkRuntimeErr (some sp) (some ep)
             (s!"'{varName}' is not defined") (some ctx))⟩, store)
         | some v =>
           .ok (⟨some ((v.copy.setPos (some sp) (some ep)).setCtx (some ctx)), none⟩,
             store))
    | .ifNode cases elseCase _ _ => ifCasesLoop fuel cases elseCase ctx store
    | .forNode varTok startN endN stepN bodyN shouldNull sp ep => do
      let varName ← tokStr varTok
      let (r, store) ← visit fuel startN ctx store
      if r.error.isSome then return (⟨none, r.error⟩, store)
      let startV ← getV r.value
      let (r, store) ← visit fuel endN ctx store
      if r.error.isSome then return (⟨none, r.error⟩, store)
      let endV ← getV r.value
      match stepN with
      | some sn => do
        let (r, store) ← visit fuel sn ctx store
        if r.error.isSome then return (⟨none, r.error⟩, store)
        let stepV ← getV r.value
        forPrep fuel varName startV endV stepV bodyN shouldNull sp ep ctx store
      | none =>
        forPrep fuel varName startV endV ⟨.number 1, none, none, none⟩
          bodyN shouldNull sp ep ctx store
    | .whileNode condN bodyN shouldNull sp ep =>
      whileLoop fuel condN bodyN shouldNull [] sp ep ctx store
    | .funcDef nameTok argToks bodyN shouldNull sp ep => do
      let funcNameOpt ←
        match nameTok with
        | some t => do
          let s ← tokStr t
          pure (some s)
        | none => pure (none : Option String)
      let argNames ← tokStrList argToks
      let fv : Value :=
        ⟨.func (baseFuncName funcNameOpt) argNames bodyN shouldNull,
         some sp, some ep, some ctx⟩
      (match nameTok, funcNameOpt with
       | some _, some fn =>
         (match ctx.symbolTable with
          | none => .exn .attributeError
          | some ref => .ok (⟨some fv, none⟩, SymbolTable.set store ref fn fv))
       | some _, none => .unmodelled
       | none, _ => .ok (⟨some fv, none⟩, store))
    | .funcCall calleeN argNs sp ep => do
      let (r, store) ← visit fuel calleeN ctx store
      if r.error.isSome then return (⟨none, r.error⟩, store)
      let v ← getV r.value
      let v := (v.setPos (some sp) (some ep)).setCtx (some ctx)
      let (argsOrErr, store) ← visitArgsLoop fuel argNs [] ctx store
      match argsOrErr with
      | .inr e => .ok (⟨none, some e⟩, store)
      | .inl args => do
        let (r, store) ← execute fuel v args store
        if r.error.isSome then return (⟨none, r.error⟩, store)
        let rv ← getV r.value
        let rv := ((rv.copy).setPos (some sp) (some ep)).setCtx (some ctx)
        .ok (⟨some rv, none⟩, store)

/-- The element loop of `_visit_ListNode` (with its missing `return`):
collect every element's value slot (`None` after an error), remember the
last error, and build the list value regardless. -/
def visitListElems (fuel : Nat) (nodes : List Node) (acc : List (Option Value))
    (errOpt : Option Err) (sp ep : Pos) (ctx : Ctx) (store : Store) :
    Res (RTRes × Store) :=
  match fuel with
  | 0 => .fuel
  | fuel + 1 =>
    match nodes with
    | [] =>
      .ok (⟨some ⟨.list acc, some sp, some ep, some ctx⟩, errOpt⟩, store)
    | n :: rest => do
      let (r, store) ← visit fuel n ctx store
      let errOpt := match r.error with | some e => some e | none => errOpt
      visitListElems fuel rest (acc ++ [r.value]) errOpt sp ep ctx store

/-- The case loop of `_visit_IfNode`, then the else clause. -/
def ifCasesLoop (fuel : Nat) (cases : List Case) (elseCase : Option ElseCase)
    (ctx : Ctx) (store : Store) : Res (RTRes × Store) :=
  match fuel with
  | 0 => .fuel
  | fuel + 1 =>
    match cases with
    | [] =>
      (match elseCase with
       | some (expr, shouldNull) => do
         let (r, store) ← visit fuel expr ctx store
         if r.error.isSome then return (⟨none, r.error⟩, store)
         let v ← getV r.value
         .ok (⟨some (if shouldNull then numberNull else v), none⟩, store)
       | none => .ok (⟨some numberNull, none⟩, store))
    | (cond, expr, shouldNull) :: rest => do
      let (r, store) ← visit fuel cond ctx store
      if r.error.isSome then return (⟨none, r.error⟩, store)
      let condV ← getV r.value
      if condV.isTrue then do
        let (r, store) ← visit fuel expr ctx store
        if r.error.isSome then return (⟨none, r.error⟩, store)
        let v ← getV r.value
        .ok (⟨some (if shouldNull then numberNull else v), none⟩, store)
      else ifCasesLoop fuel rest elseCase ctx store

/-- `_visit_ForNode` after start/end/step are evaluated: choose the
iteration predicate once from the step's sign; non-numeric bounds leave
the exact fragment (host mixed-type comparison). -/
def forPrep (fuel : Nat) (varName : String) (startV endV stepV : Value)
    (bodyN : Node) (shouldNull : Bool) (sp ep : Pos) (ctx : Ctx)
    (store : Store) : Res (RTRes × Store) :=
  match fuel with
  | 0 => .fuel
  | fuel + 1 =>
    match startV.payload, endV.payload, stepV.payload with
    | .number i, .number endQ, .number stepQ =>
      forLoop fuel varName i endQ stepQ bodyN shouldNull [] sp ep ctx store
    | _, _, _ => .unmodelled

/-- The iteration loop of `_visit_ForNode`: bind the loop variable, step
`i`, run the body, collect its value. -/
def forLoop (fuel : Nat) (varName : String) (i endQ stepQ : ℚ) (bodyN : Node)
    (shouldNull : Bool) (acc : List (Option Value)) (sp ep : Pos) (ctx : Ctx)
    (store : Store) : Res (RTRes × Store) :=
  match fuel with
  | 0 => .fuel
  | fuel + 1 =>
    if (if 0 ≤ stepQ then i < endQ else endQ < i) then
      match ctx.symbolTable with
      | none => .exn .attributeError
      | some ref => do
        let store := SymbolTable.set store ref varName ⟨.number i, none, none, none⟩
        let (r, store) ← visit fuel bodyN ctx store
        if r.error.isSome then return (⟨none, r.error⟩, store)
        forLoop fuel varName (i + stepQ) endQ stepQ bodyN shouldNull
          (acc ++ [r.value]) sp ep ctx store
    else
      .ok (⟨some (if shouldNull then numberNull
        else ⟨.list acc, some sp, some ep, some ctx⟩), none⟩, store)

/-- `_visit_WhileNode`'s loop. -/
def whileLoop (fuel : Nat) (condN bodyN : Node) (shouldNull : Bool)
    (acc : List (Option Value)) (sp ep : Pos) (ctx : Ctx) (store : Store) :
    Res (RTRes × Store) :=
  match fuel with
  | 0 => .fuel
  | fuel + 1 => do
    let (r, store) ← visit fuel condN ctx store
    if r.error.isSome then return (⟨none, r.error⟩, store)
    let condV ← getV r.value
    if ¬ condV.isTrue then
      return (⟨some (if shouldNull then numberNull
        else ⟨.list acc, some sp, some ep, some ctx⟩), none⟩, store)
    let (r, store) ← visit fuel bodyN ctx store
    if r.error.isSome then return (⟨none, r.error⟩, store)
    whileLoop fuel condN bodyN shouldNull (acc ++ [r.value]) sp ep ctx store

/-- The argument loop of `_visit_FuncCallNode`: evaluate arguments in
source order, stopping at the first error. -/
def visitArgsLoop (fuel : Nat) (nodes : List Node) (acc : List Value)
    (ctx : Ctx) (store : Store) : Res ((List Value ⊕ Err) × Store) :=
  match fuel with
  | 0 => .fuel
  | fuel + 1 =>
    match nodes with
    | [] => .ok (.inl acc, store)
    | n :: rest => do
      let (r, store) ← visit fuel n ctx store
      match r.error with
      | some e => .ok (.inr e, store)
      | none => do
        let v ← getV r.value
        visitArgsLoop fuel rest (acc ++ [v]) ctx store

/-- `value.execute(args)`: `Function.execute` for user functions,
`BuiltInFunction.execute` for built-ins, and the base `Value.execute`
(an IllegalOperation runtime error) for every other value. -/
def execute (fuel : Nat) (v : Value) (args : List Value) (store : Store) :
    Res (RTRes × Store) :=
  match fuel with
  | 0 => .fuel
  | fuel + 1 =>
    match v.payload with
    | .func funcName argNames bodyN shouldNull => do
      let (fctx, store) ← generateFuncContext v funcName store
      (match checkArgs v funcName argNames args with
       | some e => .ok (⟨none, some e⟩, store)
       | none => do
         let store ← populateArgs argNames args fctx store
         let (r, store) ← visit fuel bodyN fctx store
         if r.error.isSome then return (⟨none, r.error⟩, store)
         let val ← getV r.value
         .ok (⟨some (if shouldNull then numberNull else val), none⟩, store))
    | .builtin funcName => do
      let (fctx, store) ← generateFuncContext v funcName store
      (match builtinArgNames funcName with
       | none => .exn .attributeError
       | some argNames =>
         match checkArgs v funcName argNames args with
         | some e => .ok (⟨none, some e⟩, store)
         | none => do
           let store ← populateArgs argNames args fctx store
           runBuiltin fuel v funcName fctx store)
    | _ => .ok (⟨none, some v.illegalOperation⟩, store)

end

/-! ## The global symbol table and `run` -/

def builtinV (name : String) : Value := ⟨.builtin name, none, none, none⟩

/-- The preloaded global frame (`global_symbol_table`); `cls` shares the
`clear` built-in. -/
def globalFrame : Frame :=
  ⟨[("null", numberNull), ("false", numberFalse), ("true", numberTrue),
    ("math_pi", numberMathPi),
    ("print", builtinV "print"), ("print_ret", builtinV "print_ret"),
    ("input", builtinV "input"), ("input_int", builtinV "input_int"),
    ("clear", builtinV "clear"), ("cls", builtinV "clear"),
    ("is_num", builtinV "is_number"), ("is_str", builtinV "is_string"),
    ("is_list", builtinV "is_list"), ("is_func", builtinV "is_function"),
    ("append", builtinV "append"), ("pop", builtinV "pop"),
    ("extend", builtinV "extend")], none⟩

/-- Fuel for the parser: bounded by the call depth, which the grammar
keeps proportional to the token count. -/
def parseFuel (tokens : List Token) : Nat := tokens.length * 16 + 64

/-- Fuel for the evaluator on a program of the given source length;
generous for every terminating run of the concrete programs below. -/
def interpFuel (text : String) : Nat := (text.length + 4) * 16

/-- `run(file_name, text)`: tokenize, parse, then interpret under the
`<main>` context whose table is the global frame.  The result is the
`(value, error)` pair the source returns (or the Python exception the
source would raise). -/
def run (fileName text : String) : Res (Option Value × Option Err) := do
  let (tokens, lexErr) ← tokenize fileName text
  match lexErr with
  | some e => return (none, some e)
  | none => do
    let (pr, _s) ← Parser.parse (parseFuel tokens) (Parser.init tokens)
    match pr.error with
    | some e => return (none, some e)
    | none => do
      let ast ← getN pr.node
      let store : Store := ⟨[globalFrame], [], []⟩
      let mainCtx : Ctx := ⟨"<main>", none, none, some 0⟩
      let (r, _store) ← visit (interpFuel text) ast mainCtx store
      return (r.value, r.error)

/-! ## Observations (position- and context-free views for theorems) -/

inductive Obs where
  | number (q : ℚ)
  | str (s : String)
  | list (elems : List (Option Obs))
  | func (name : String)
  | builtin (name : String)
deriving Repr

mutual
def Value.obs : Value → Obs
  | ⟨.number q, _, _, _⟩ => .number q
  | ⟨.str s, _, _, _⟩ => .str s
  | ⟨.list elems, _, _, _⟩ => .list (obsElems elems)
  | ⟨.func n _ _ _, _, _, _⟩ => .func n
  | ⟨.builtin n, _, _, _⟩ => .builtin n

def obsElems : List (Option Value) → List (Option Obs)
  | [] => []
  | none :: rest => none :: obsElems rest
  | some v :: rest => some v.obs :: obsElems rest
end

/-- The observation of `run`'s value slot (`none` when there is no value
or the run left the normal-return path). -/
def runObsValue (fileName text : String) : Option Obs :=
  match run fileName text with
  | .ok (some v, _) => some v.obs
  | _ => none

/-- The error name of `run`'s error slot. -/
def runErrName (fileName text : String) : Option String :=
  match run fileName text with
  | .ok (_, some e) => some e.name
  | _ => none

/-- Whether each slot of `run`'s pair is set (`none` when the source would
raise a Python exception instead of returning). -/
def runPair (fileName text : String) : Option (Bool × Bool) :=
  match run fileName text with
  | .ok (v, e) => some (v.isSome, e.isSome)
  | _ => none

/-! ## Generic result lemmas -/

theorem Res.ok_bind {α β : Type} (a : α) (f : α → Res β) :
    (Res.ok a >>= f) = f a := rfl

theorem Res.bind_eq_ok {α β : Type} {m : Res α} {f : α → Res β} {b : β}
    (h : m >>= f = .ok b) : ∃ a, m = .ok a ∧ f a = .ok b := by
  cases m with
  | ok a => exact ⟨a, rfl, h⟩
  | exn e => exact absurd h (by simp [Bind.bind, Res.bind])
  | fuel => exact absurd h (by simp [Bind.bind, Res.bind])
  | unmodelled => exact absurd h (by simp [Bind.bind, Res.bind])

/-! ## Claim theorems -/

/-- C1.  The claim says a name bound only in an ancestor frame is resolved
by walking the symbol-table parent chain, and that
`func f() -> g()` + `func g() -> 1` + `f()` evaluates to the Number 1.
The code disagrees: `SymbolTable.get` recurses with
`self.parent.get(var_name, None)`, a two-argument call to a one-argument
method, so the very first lookup that needs the parent chain raises
TypeError — the S10 program crashes instead of returning 1. -/
theorem c1_parent_chain_lookup_crashes :
    run "<stdin>" "func f() -> g()\nfunc g() -> 1\nf()" = Res.exn .typeError := rfl

/-- C2.  The claim says `if 1 == 2 then 10 else 20` evaluates to 20.  The
parser's `_if_expr_cases` unpacks the elif/else result into the misspelled
name `else_cases` and never assigns the local `else_case`, so the else
clause is dropped and the if-expression evaluates to `Number.null`
(value 0): the program returns the one-element list `[0]`, not `[20]`,
with no error. -/
theorem c2_else_clause_dropped :
    runObsValue "<stdin>" "if 1 == 2 then 10 else 20" =
      some (.list [some (.number 0)]) ∧
    runErrName "<stdin>" "if 1 == 2 then 10 else 20" = none :=
  ⟨rfl, rfl⟩

/-- C3 (counterexample).  The claim says `and`/`or` on numbers yield
exactly 1 or 0, and in particular that `2 and 3` yields 1.  The code
computes `int(self.value and other.value)`, and Python's `and` hands back
an operand: `2 and 3` evaluates to the Number 3 (at the value level and
through a full run), and 3 is neither 1 nor 0. -/
theorem c3_and_yields_operand_counterexample :
    Value.andOp ⟨.number 2, none, none, none⟩ ⟨.number 3, none, none, none⟩ =
      .ok (some ⟨.number 3, none, none, none⟩, none) ∧
    runObsValue "<stdin>" "2 and 3" = some (.list [some (.number 3)]) ∧
    (3 : ℚ) ≠ 1 ∧ (3 : ℚ) ≠ 0 :=
  ⟨rfl, rfl, by norm_num, by norm_num⟩

/-- C3 (amended).  `a and b` evaluates both operands eagerly and returns
`Number(int(a and b))` in Python's sense: 0 (that is, `int(a)`) when `a`
is zero, else `int(b)` truncated toward zero; `a or b` returns `int(b)`
when `a` is zero, else `int(a)`.  The result is not restricted to 0/1. -/
theorem c3_and_or_amended (a b : ℚ) (sp ep sp2 ep2 : Option Pos)
    (c c2 : Option Ctx) :
    Value.andOp ⟨.number a, sp, ep, c⟩ ⟨.number b, sp2, ep2, c2⟩ =
      .ok (some ⟨.number (if a = 0 then 0 else (pyInt b : ℚ)), none, none, c⟩, none) ∧
    Value.orOp ⟨.number a, sp, ep, c⟩ ⟨.number b, sp2, ep2, c2⟩ =
      .ok (some ⟨.number (if a = 0 then (pyInt b : ℚ) else (pyInt a : ℚ)), none, none, c⟩, none) := by
  constructor <;> by_cases h : a = 0 <;>
    simp [Value.andOp, Value.orOp, Value.payload, Value.ctx, vNumber, pyAnd, pyOr, pyInt, h]

/-- C4.  The claim says a well-formed block-form `func NAME(params)
NEWLINE statements end` parses into a function whose body is the parsed
statements.  The code's block branch builds
`FuncDefinitionNode(..., body_expr, True)` where `body_expr` was only
assigned in the arrow branch (which already returned): every block-form
definition raises UnboundLocalError; here, `func f()` `1` `end`. -/
theorem c4_block_func_def_crashes :
    run "<stdin>" "func f()\n1\nend" = Res.exn .unboundLocalError := rfl

/-- C5.  The claim says Number-plus-non-Number returns an IllegalOperation
Runtime error value.  `Number.add` instead calls the unbound
`Value.illegal_operation(self.start_pos, self.end_pos)`, whose body then
reads `.start_pos` off a `Position`: evaluating `1 + "a"` raises
AttributeError instead of producing an error value. -/
theorem c5_number_plus_string_crashes :
    run "<stdin>" "1 + \"a\"" = Res.exn .attributeError := rfl

/-- C6.  The claim says exactly one of `run`'s pair is non-null.  The
element loop of `_visit_ListNode` lacks the `return` after its error
check, so a failing top-level statement leaves the error set while the
final `success` also sets the list value: `run('<stdin>', '1/0')` returns
a pair with BOTH slots non-null. -/
theorem c6_run_returns_both_slots :
    runPair "<stdin>" "1/0" = some (true, true) := rfl

/-- C7.  `Number.divide_by` on numbers: a "Division by zero" runtime error
carried at the divisor's start/end positions (and the dividend's context)
exactly when the divisor is zero, and the quotient Number otherwise. -/
theorem c7_divide_by_zero_iff (a b : ℚ) (asp aep : Option Pos)
    (actx : Option Ctx) (bsp bep : Option Pos) (bctx : Option Ctx) :
    Value.divideBy ⟨.number a, asp, aep, actx⟩ ⟨.number b, bsp, bep, bctx⟩ =
      if b = 0 then
        .ok (none, some (mkRuntimeErr bsp bep "Division by zero" actx))
      else .ok (some ⟨.number (a / b), none, none, actx⟩, none) := by
  by_cases h : b = 0 <;> simp [Value.divideBy, Value.payload, Value.ctx, Value.startPos, Value.endPos, vNumber, h]

/-- `pyListGet` at an integer-valued index, in terms of plain list
lookups. -/
theorem pyListGet_intCast {α : Type} (xs : List α) (j : ℤ) :
    pyListGet xs (j : ℚ) =
      if 0 ≤ j ∧ j < (xs.length : ℤ) then xs.get? j.toNat
      else if -(xs.length : ℤ) ≤ j ∧ j < 0 then xs.get? ((xs.length : ℤ) + j).toNat
      else none := by
  simp [pyListGet, Rat.den_intCast, Rat.num_intCast]

/-- `List.divide_by` with an integer Number index, characterised over the
whole index range. -/
theorem divideBy_list_int (elems : List (Option Value)) (sp ep : Option Pos)
    (c : Option Ctx) (nsp nep : Option Pos) (nc : Option Ctx) (j : ℤ) :
    Value.divideBy ⟨.list elems, sp, ep, c⟩ ⟨.number (j : ℚ), nsp, nep, nc⟩ =
      if 0 ≤ j ∧ j < (elems.length : ℤ) then .ok (elems.getD j.toNat none, none)
      else if -(elems.length : ℤ) ≤ j ∧ j < 0 then
        .ok (elems.getD ((elems.length : ℤ) + j).toNat none, none)
      else .ok (none, some (mkRuntimeErr nsp nep
        "Element at this index could not be retrieved from list because index is out of bounds" c)) := by
  have hg := pyListGet_intCast elems j
  simp only [Value.divideBy, Value.payload, Value.ctx, Value.startPos, Value.endPos, hg]
  by_cases h1 : 0 ≤ j ∧ j < (elems.length : ℤ)
  · have hlt : j.toNat < elems.length := by omega
    simp [h1, List.getD, List.get?_eq_getElem?, List.getElem?_eq_getElem hlt]
  · by_cases h2 : -(elems.length : ℤ) ≤ j ∧ j < 0
    · have hlt : ((elems.length : ℤ) + j).toNat < elems.length := by omega
      simp [h1, h2, List.getD, List.get?_eq_getElem?, List.getElem?_eq_getElem hlt]
    · simp [h1, h2]

/-- C10.  For a List of n elements and an integer Number index i with
−n ≤ i ≤ −1, the index operation `L / i` succeeds and returns the element
at position n + i, and the out-of-bounds Runtime error occurs exactly for
i < −n or i ≥ n. -/
theorem c10_negative_index (elems : List (Option Value)) (sp ep : Option Pos)
    (c : Option Ctx) (nsp nep : Option Pos) (nc : Option Ctx) (i : ℤ)
    (h1 : -(elems.length : ℤ) ≤ i) (h2 : i ≤ -1) :
    Value.divideBy ⟨.list elems, sp, ep, c⟩ ⟨.number (i : ℚ), nsp, nep, nc⟩ =
      .ok (elems.getD ((elems.length : ℤ) + i).toNat none, none) ∧
    ∀ j : ℤ,
      (Value.divideBy ⟨.list elems, sp, ep, c⟩ ⟨.number (j : ℚ), nsp, nep, nc⟩ =
        .ok (none, some (mkRuntimeErr nsp nep
          "Element at this index could not be retrieved from list because index is out of bounds" c)))
      ↔ (j < -(elems.length : ℤ) ∨ (elems.length : ℤ) ≤ j) := by
  have hchar := divideBy_list_int elems sp ep c nsp nep nc
  constructor
  · rw [hchar i, if_neg (by omega), if_pos (by omega)]
  · intro j
    rw [hchar j]
    by_cases ha : 0 ≤ j ∧ j < (elems.length : ℤ)
    · simp [ha]; omega
    · by_cases hb : -(elems.length : ℤ) ≤ j ∧ j < 0
      · simp [ha, hb]; omega
      · simp [ha, hb]; omega

/-- Witness for C10 at the concrete list `[1]` and index −1. -/
theorem c10_witness :
    Value.divideBy ⟨.list [some numberTrue], none, none, none⟩
        ⟨.number ((-1 : ℤ) : ℚ), none, none, none⟩ =
      .ok (some numberTrue, none) := by
  have h := (c10_negative_index [some numberTrue] none none none none none none (-1)
    (by norm_num) (by norm_num)).1
  simpa using h

/-- C9.  Evaluating the double negation `not not n` of a Number n yields
the Number 1 when n is non-zero and the Number 0 when n is zero (stated
through the interpreter's unary-op visitor, for any fuel, context, store
and token positions). -/
theorem c9_double_not (fuel : Nat) (q : ℚ) (p1 p2 p3 p4 p5 p6 : Pos)
    (ctx : Ctx) (store : Store) :
    visit (fuel + 3)
      (mkUnaryOpNode (mkTokenSE .KEYWORD (some (.str "not")) p1 p2)
        (mkUnaryOpNode (mkTokenSE .KEYWORD (some (.str "not")) p3 p4)
          (mkNumberNode (mkTokenSE .FLOAT (some (.float q)) p5 p6))))
      ctx store =
      .ok (⟨some ⟨.number (if q = 0 then 0 else 1), some p1, some p6, some ctx⟩, none⟩,
        store) := by
  by_cases h : q = 0 <;>
    simp [visit, mkUnaryOpNode, mkNumberNode, mkTokenSE, Token.matches,
      Value.notOp, Value.payload, Value.ctx, Value.setPos, vNumber, getV,
      Node.startPos, Node.endPos, Bind.bind, Res.bind, h]

/-! ## C8: lexer output invariants -/

theorem posAdv_idx (p : Pos) (c : Option Char) : (p.adv c).idx = p.idx + 1 := by
  unfold Pos.adv; split <;> rfl

theorem lexAdv_idx (st : LexState) : st.adv.pos.idx = st.pos.idx + 1 := by
  simp [LexState.adv, posAdv_idx]

theorem mkTokenS_posOk (t : TokType) (v : Option TValue) (p : Pos) :
    (mkTokenS t v p).startPos.idx ≤ (mkTokenS t v p).endPos.idx := by
  simp [mkTokenS, posAdv_idx]

theorem numScan_mono (fuel : Nat) : ∀ (st : LexState) (a b : List Char) (d : Nat)
    {a' b' : List Char} {hd : Bool} {st' : LexState},
    numScan fuel st a b d = .ok (a', b', hd, st') → st.pos.idx ≤ st'.pos.idx := by
  induction fuel with
  | zero => intro st a b d a' b' hd st' h; simp [numScan] at h
  | succ fuel ih =>
    intro st a b d a' b' hd st' h
    unfold numScan at h
    split at h
    · split_ifs at h
      all_goals first
      | (cases h; exact le_refl _)
      | (have h2 := ih _ _ _ _ h; rw [lexAdv_idx] at h2; omega)
    · cases h; exact le_refl _

theorem identScan_mono (fuel : Nat) : ∀ (st : LexState) (acc : List Char)
    {cs : List Char} {st' : LexState},
    identScan fuel st acc = .ok (cs, st') → st.pos.idx ≤ st'.pos.idx := by
  induction fuel with
  | zero => intro st acc cs st' h; simp [identScan] at h
  | succ fuel ih =>
    intro st acc cs st' h
    unfold identScan at h
    split at h
    · split_ifs at h
      all_goals first
      | (cases h; exact le_refl _)
      | (have h2 := ih _ _ h; rw [lexAdv_idx] at h2; omega)
    · cases h; exact le_refl _

theorem stringScan_mono (fuel : Nat) : ∀ (st : LexState) (acc : List Char)
    (esc : Bool) {cs : List Char} {st' : LexState},
    stringScan fuel st acc esc = .ok (cs, st') → st.pos.idx ≤ st'.pos.idx := by
  induction fuel with
  | zero => intro st acc esc cs st' h; simp [stringScan] at h
  | succ fuel ih =>
    intro st acc esc cs st' h
    unfold stringScan at h
    split at h
    · split_ifs at h
      all_goals first
      | (cases h; exact le_refl _)
      | (have h2 := ih _ _ _ h; rw [lexAdv_idx] at h2; omega)
    · cases h; exact le_refl _

theorem makeNumber_posOk {st : LexState} {tok : Token} {st' : LexState}
    (h : makeNumber st = .ok (tok, st')) :
    tok.startPos.idx ≤ tok.endPos.idx := by
  unfold makeNumber at h
  obtain ⟨⟨a, b, hd, st₂⟩, hscan, h⟩ := Res.bind_eq_ok h
  obtain ⟨v, _hv, h⟩ := Res.bind_eq_ok h
  have hm := numScan_mono _ _ _ _ _ hscan
  rcases v with i | q | s <;> (cases h; simpa [mkTokenSE] using hm)

theorem makeIdentifier_posOk {st : LexState} {tok : Token} {st' : LexState}
    (h : makeIdentifier st = .ok (tok, st')) :
    tok.startPos.idx ≤ tok.endPos.idx := by
  unfold makeIdentifier at h
  obtain ⟨⟨cs, st₂⟩, hscan, h⟩ := Res.bind_eq_ok h
  have hm := identScan_mono _ _ _ hscan
  cases h
  simpa [mkTokenSE] using hm

theorem makeString_posOk {st : LexState} {tok : Token} {st' : LexState}
    (h : makeString st = .ok (tok, st')) :
    tok.startPos.idx ≤ tok.endPos.idx := by
  unfold makeString at h
  obtain ⟨⟨cs, st₂⟩, hscan, h⟩ := Res.bind_eq_ok h
  have hm := stringScan_mono _ _ _ _ hscan
  rw [lexAdv_idx] at hm
  cases h
  simp only [mkTokenSE, lexAdv_idx]
  omega

theorem makeEq_posOk {st : LexState} {tok : Token} {st' : LexState}
    (h : makeEq st = (tok, st')) : tok.startPos.idx ≤ tok.endPos.idx := by
  simp only [makeEq] at h
  split_ifs at h <;> (cases h; simp only [mkTokenSE, lexAdv_idx]; omega)

theorem makeLt_posOk {st : LexState} {tok : Token} {st' : LexState}
    (h : makeLt st = (tok, st')) : tok.startPos.idx ≤ tok.endPos.idx := by
  simp only [makeLt] at h
  split_ifs at h <;> (cases h; simp only [mkTokenSE, lexAdv_idx]; omega)

theorem makeGt_posOk {st : LexState} {tok : Token} {st' : LexState}
    (h : makeGt st = (tok, st')) : tok.startPos.idx ≤ tok.endPos.idx := by
  simp only [makeGt] at h
  split_ifs at h <;> (cases h; simp only [mkTokenSE, lexAdv_idx]; omega)

theorem makeMinusOrArrow_posOk {st : LexState} {tok : Token} {st' : LexState}
    (h : makeMinusOrArrow st = (tok, st')) : tok.startPos.idx ≤ tok.endPos.idx := by
  simp only [makeMinusOrArrow] at h
  split_ifs at h <;> (cases h; simp only [mkTokenSE, lexAdv_idx]; omega)

theorem makeNeq_posOk {st : LexState} {tok : Token} {errOpt : Option Err}
    {st' : LexState} (h : makeNeq st = ((some tok, errOpt), st')) :
    tok.startPos.idx ≤ tok.endPos.idx := by
  simp only [makeNeq] at h
  split_ifs at h
  · cases h; simp only [mkTokenSE, lexAdv_idx]; omega
  · cases h

theorem makeNeq_not_silent {st : LexState} {st' : LexState}
    (h : makeNeq st = ((none, none), st')) : False := by
  simp only [makeNeq] at h
  split_ifs at h <;> cases h

theorem consToken_ok {tok : Token} {r : List Token × Option Err}
    {ts : List Token} (h : tokenizeLoop.consToken tok r = .ok (ts, none)) :
    ∃ ts', r = (ts', none) ∧ ts = tok :: ts' := by
  rcases r with ⟨ts', e'⟩
  cases e' with
  | none =>
    cases h
    exact ⟨ts', rfl, rfl⟩
  | some e => simp [tokenizeLoop.consToken] at h

theorem consToken_bind_inv {tok : Token} {fuel : Nat} {st₁ : LexState}
    {ts : List Token}
    (h : (tokenizeLoop fuel st₁ >>= tokenizeLoop.consToken tok) = .ok (ts, none)) :
    ∃ ts', tokenizeLoop fuel st₁ = .ok (ts', none) ∧ ts = tok :: ts' := by
  obtain ⟨r, hr, h2⟩ := Res.bind_eq_ok h
  obtain ⟨ts', hre, hts⟩ := consToken_ok h2
  exact ⟨ts', hre ▸ hr, hts⟩

/-- The three output invariants, pushed through one consed token. -/
theorem consOk_props {tok : Token} {ts' : List Token}
    (htok : tok.startPos.idx ≤ tok.endPos.idx)
    (hprops : ts' ≠ [] ∧ ts'.getLast?.map Token.type = some .EOF ∧
      ∀ t ∈ ts', t.startPos.idx ≤ t.endPos.idx) :
    (tok :: ts') ≠ [] ∧ (tok :: ts').getLast?.map Token.type = some .EOF ∧
      ∀ t ∈ tok :: ts', t.startPos.idx ≤ t.endPos.idx := by
  obtain ⟨h1, h2, h3⟩ := hprops
  rcases ts' with _ | ⟨x, rest⟩
  · exact absurd rfl h1
  · refine ⟨by simp, by rwa [List.getLast?_cons_cons], ?_⟩
    intro t ht
    rcases List.mem_cons.mp ht with rfl | ht
    · exact htok
    · exact h3 t ht

set_option maxHeartbeats 1600000 in
theorem tokenizeLoop_ok (fuel : Nat) : ∀ (st : LexState) (ts : List Token),
    tokenizeLoop fuel st = .ok (ts, none) →
    ts ≠ [] ∧ ts.getLast?.map Token.type = some TokType.EOF ∧
      ∀ t ∈ ts, t.startPos.idx ≤ t.endPos.idx := by
  induction fuel with
  | zero =>
    intro st ts h
    exact Res.noConfusion ((show tokenizeLoop 0 st = Res.fuel from rfl).symm.trans h)
  | succ fuel ih =>
    intro st ts h
    unfold tokenizeLoop at h
    split at h
    · -- end of text: the EOF token alone
      cases h
      refine ⟨by simp, by simp [mkTokenS], ?_⟩
      intro t ht
      rcases List.mem_singleton.mp ht with rfl
      exact mkTokenS_posOk _ _ _
    · -- one `by_cases` per character class, in source order
      rename_i c_1 heq
      by_cases hc0 : c_1 = ' ' ∨ c_1 = '\t'
      · rw [if_pos hc0] at h
        exact ih _ _ h
      · rw [if_neg hc0] at h
        by_cases hc1 : isNumChar c_1 = true
        · rw [if_pos hc1] at h
          obtain ⟨⟨tok, st'⟩, hmk, h⟩ := Res.bind_eq_ok h
          obtain ⟨ts', hrec, rfl⟩ := consToken_bind_inv h
          exact consOk_props (makeNumber_posOk hmk) (ih _ _ hrec)
        · rw [if_neg hc1] at h
          by_cases hc2 : isLetterChar c_1 = true
          · rw [if_pos hc2] at h
            obtain ⟨⟨tok, st'⟩, hmk, h⟩ := Res.bind_eq_ok h
            obtain ⟨ts', hrec, rfl⟩ := consToken_bind_inv h
            exact consOk_props (makeIdentifier_posOk hmk) (ih _ _ hrec)
          · rw [if_neg hc2] at h
            by_cases hc3 : c_1 = '+'
            · rw [if_pos hc3] at h
              obtain ⟨ts', hrec, rfl⟩ := consToken_bind_inv h
              exact consOk_props (mkTokenS_posOk _ _ _) (ih _ _ hrec)
            · rw [if_neg hc3] at h
              by_cases hc4 : c_1 = '-'
              · rw [if_pos hc4] at h
                rcases hmk : makeMinusOrArrow st with ⟨tok, st'⟩
                rw [hmk] at h
                obtain ⟨ts', hrec, rfl⟩ := consToken_bind_inv h
                exact consOk_props (makeMinusOrArrow_posOk hmk) (ih _ _ hrec)
              · rw [if_neg hc4] at h
                by_cases hc5 : c_1 = '*'
                · rw [if_pos hc5] at h
                  obtain ⟨ts', hrec, rfl⟩ := consToken_bind_inv h
                  exact consOk_props (mkTokenS_posOk _ _ _) (ih _ _ hrec)
                · rw [if_neg hc5] at h
                  by_cases hc6 : c_1 = '/'
                  · rw [if_pos hc6] at h
                    obtain ⟨ts', hrec, rfl⟩ := consToken_bind_inv h
                    exact consOk_props (mkTokenS_posOk _ _ _) (ih _ _ hrec)
                  · rw [if_neg hc6] at h
                    by_cases hc7 : c_1 = '^'
                    · rw [if_pos hc7] at h
                      obtain ⟨ts', hrec, rfl⟩ := consToken_bind_inv h
                      exact consOk_props (mkTokenS_posOk _ _ _) (ih _ _ hrec)
                    · rw [if_neg hc7] at h
                      by_cases hc8 : c_1 = '('
                      · rw [if_pos hc8] at h
                        obtain ⟨ts', hrec, rfl⟩ := consToken_bind_inv h
                        exact consOk_props (mkTokenS_posOk _ _ _) (ih _ _ hrec)
                      · rw [if_neg hc8] at h
                        by_cases hc9 : c_1 = ')'
                        · rw [if_pos hc9] at h
                          obtain ⟨ts', hrec, rfl⟩ := consToken_bind_inv h
                          exact consOk_props (mkTokenS_posOk _ _ _) (ih _ _ hrec)
                        · rw [if_neg hc9] at h
                          by_cases hc10 : c_1 = '='
                          · rw [if_pos hc10] at h
                            rcases hmk : makeEq st with ⟨tok, st'⟩
                            rw [hmk] at h
                            obtain ⟨ts', hrec, rfl⟩ := consToken_bind_inv h
                            exact consOk_props (makeEq_posOk hmk) (ih _ _ hrec)
                          · rw [if_neg hc10] at h
                            by_cases hc11 : c_1 = '!'
                            · rw [if_pos hc11] at h
                              rcases hmk : makeNeq st with ⟨⟨tokOpt, errOpt⟩, st'⟩
                              rw [hmk] at h
                              rcases errOpt with _ | e
                              · rcases tokOpt with _ | tok
                                · exact absurd hmk makeNeq_not_silent
                                · obtain ⟨ts', hrec, rfl⟩ := consToken_bind_inv h
                                  exact consOk_props (makeNeq_posOk hmk) (ih _ _ hrec)
                              · simp at h
                            · rw [if_neg hc11] at h
                              by_cases hc12 : c_1 = '<'
                              · rw [if_pos hc12] at h
                                rcases hmk : makeLt st with ⟨tok, st'⟩
                                rw [hmk] at h
                                obtain ⟨ts', hrec, rfl⟩ := consToken_bind_inv h
                                exact consOk_props (makeLt_posOk hmk) (ih _ _ hrec)
                              · rw [if_neg hc12] at h
                                by_cases hc13 : c_1 = '>'
                                · rw [if_pos hc13] at h
                                  rcases hmk : makeGt st with ⟨tok, st'⟩
                                  rw [hmk] at h
                                  obtain ⟨ts', hrec, rfl⟩ := consToken_bind_inv h
                                  exact consOk_props (makeGt_posOk hmk) (ih _ _ hrec)
                                · rw [if_neg hc13] at h
                                  by_cases hc14 : c_1 = ','
                                  · rw [if_pos hc14] at h
                                    obtain ⟨ts', hrec, rfl⟩ := consToken_bind_inv h
                                    exact consOk_props (mkTokenS_posOk _ _ _) (ih _ _ hrec)
                                  · rw [if_neg hc14] at h
                                    by_cases hc15 : c_1 = '\"'
                                    · rw [if_pos hc15] at h
                                      obtain ⟨⟨tok, st'⟩, hmk, h⟩ := Res.bind_eq_ok h
                                      obtain ⟨ts', hrec, rfl⟩ := consToken_bind_inv h
                                      exact consOk_props (makeString_posOk hmk) (ih _ _ hrec)
                                    · rw [if_neg hc15] at h
                                      by_cases hc16 : c_1 = '['
                                      · rw [if_pos hc16] at h
                                        obtain ⟨ts', hrec, rfl⟩ := consToken_bind_inv h
                                        exact consOk_props (mkTokenS_posOk _ _ _) (ih _ _ hrec)
                                      · rw [if_neg hc16] at h
                                        by_cases hc17 : c_1 = ']'
                                        · rw [if_pos hc17] at h
                                          obtain ⟨ts', hrec, rfl⟩ := consToken_bind_inv h
                                          exact consOk_props (mkTokenS_posOk _ _ _) (ih _ _ hrec)
                                        · rw [if_neg hc17] at h
                                          by_cases hc18 : c_1 = ';' ∨ c_1 = '\n'
                                          · rw [if_pos hc18] at h
                                            obtain ⟨ts', hrec, rfl⟩ := consToken_bind_inv h
                                            exact consOk_props (mkTokenS_posOk _ _ _) (ih _ _ hrec)
                                          · rw [if_neg hc18] at h
                                            simp at h

/-- C8.  Every successful lex ends in an EOF token, is non-empty, and every
token's start index is at most its end index (source order). -/
theorem c8_lexer_invariants (fileName text : String) (tokens : List Token)
    (h : tokenize fileName text = .ok (tokens, none)) :
    tokens ≠ [] ∧ tokens.getLast?.map Token.type = some TokType.EOF ∧
      ∀ t ∈ tokens, t.startPos.idx ≤ t.endPos.idx :=
  tokenizeLoop_ok _ _ _ h

/-- The token list of one concrete successful lex, for the C8 witness. -/
def c8ExampleTokens : List Token :=
  match tokenize "<stdin>" "1 + 2" with
  | .ok (ts, _) => ts
  | _ => []

/-- Witness for C8 at the concrete source `1 + 2`. -/
theorem c8_witness :
    tokenize "<stdin>" "1 + 2" = Res.ok (c8ExampleTokens, none) ∧
    (c8ExampleTokens ≠ [] ∧
      c8ExampleTokens.getLast?.map Token.type = some TokType.EOF ∧
      ∀ t ∈ c8ExampleTokens, t.startPos.idx ≤ t.endPos.idx) :=
  ⟨rfl, c8_lexer_invariants "<stdin>" "1 + 2" c8ExampleTokens rfl⟩
